import Mathlib

/-!
Verification of the Flow Master level generation, validation and uniqueness
subsystem.  The definitions below are a shallow embedding of the TypeScript
sources (`src/lib/level-validator.ts` — which holds both the validator and the
generator —, `src/utils/grid-utils` (part_012), `src/utils` color-count
heuristic (part_009), `src/lib/daily-challenge.ts` and
`src/utils/level-generation-utils.ts`).

Modelling conventions:
* Cells are `Nat` linear indices; a grid is a function `Nat → Int` with `-1`
  meaning empty and a color id otherwise (mirroring `Int32Array.fill(-1)`).
* `Math.random()` / `mulberry32` produce floats `k / 2^32` with `k < 2^32`;
  we carry the integer numerator `k`.  `Math.floor(r * n)` is then exactly
  `k * n / 2^32` in natural division (the float products involved are below
  `2^53`, hence exact), and `r < 0.3` is exactly `k < 1288490189` (the float64
  nearest to 0.3 is slightly below 3/10; `⌈0.3f64·2^32⌉ = 1288490189`).
* A random stream is a function `Nat → Nat` together with a cursor; reading
  takes the value modulo `2^32`, encoding "a stream of values in `[0, 2^32)`".
* JS objects with numeric keys (the `anchors` record) are modelled as the list
  of writes `(cell, colorId)` in program order; `Object.entries` enumerates
  integer-like keys in ascending numeric order with last-write-wins values,
  which `objEntries` reproduces.
* JS `Array.prototype.sort` with a numeric comparator is a stable ascending
  sort, modelled by the stable insertion sort `sortByKey`.
* Loops are encoded as fuel recursion; every call site passes fuel that
  dominates the loop's iteration count (each iteration consumes an empty cell,
  pops a stack entry, or descends one DFS level), and fuel exhaustion is
  mapped to the failure/stuck outcome of the surrounding algorithm.
-/

set_option maxRecDepth 8000

/-- Stable insertion of `a` into `l`: `a` goes before the first element whose
key is `≥ key a` (so earlier elements win ties — the behaviour of a stable
ascending sort). -/
def insertByKey (key : α → Nat) (a : α) : List α → List α
  | [] => [a]
  | b :: l => if key a ≤ key b then a :: b :: l else b :: insertByKey key a l

/-- Stable ascending sort by a `Nat` key; models JS `Array.prototype.sort`
with comparator `(x, y) => key(x) - key(y)` (stable per ES2019). -/
def sortByKey (key : α → Nat) : List α → List α
  | [] => []
  | a :: l => insertByKey key a (sortByKey key l)

/-- `Array.prototype.splice(n, 0, a)`: insert `a` at position `n`. -/
def insertAtIdx (l : List α) (n : Nat) (a : α) : List α :=
  l.take n ++ a :: l.drop n

/-- Index of the first occurrence of `a` (JS `indexOf`; the elements we look
up are always present, so the not-found value is irrelevant). -/
def jsIndexOf (l : List Nat) (a : Nat) : Nat := l.findIdx (fun x => x == a)

/-- Last-write-wins lookup in a list of `(key, value)` writes: the value of a
JS object property after all writes in `l`. -/
def lookupLast (l : List (Nat × Nat)) (c : Nat) : Option Nat :=
  ((l.filter (fun e => e.1 == c)).getLast?).map (·.2)

/-- `Object.entries` of a JS object with numeric keys: ascending key order,
last-write-wins values. -/
def objEntries (writes : List (Nat × Nat)) : List (Nat × Nat) :=
  (sortByKey id ((writes.map (·.1)).eraseDups)).filterMap
    (fun c => (lookupLast writes c).map (fun v => (c, v)))

/-- Grouping of anchor entries by color (the `colorAnchors` record both
validators build): keys ascending, each value list in entry order. -/
def colorGroups (entries : List (Nat × Nat)) : List (Nat × List Nat) :=
  (sortByKey id ((entries.map (·.2)).eraseDups)).map
    (fun col => (col, (entries.filter (fun e => e.2 == col)).map (·.1)))

/-- First cell appearing twice in `l` (traversal order), given already-seen
cells `seen`; models the `cellToColor` duplicate scan. -/
def firstDupAux (seen : List Nat) : List Nat → Option Nat
  | [] => none
  | c :: cs => if seen.contains c then some c else firstDupAux (c :: seen) cs

def firstDup (l : List Nat) : Option Nat := firstDupAux [] l

/-! ## Grid utilities (src/utils/grid-utils, part_012) -/

/-- `getNeighbors(idx, width, height)`: up-to-4 orthogonal neighbours, pushed
in the source order top, bottom, left, right. -/
def getNeighbors (idx width height : Nat) : List Nat :=
  let r := idx / width
  let c := idx % width
  (if 0 < r then [idx - width] else []) ++
  (if r < height - 1 then [idx + width] else []) ++
  (if 0 < c then [idx - 1] else []) ++
  (if c < width - 1 then [idx + 1] else [])

/-- `areAdjacent(idx1, idx2, width)`: Manhattan distance 1 (level-generator). -/
def areAdjacent (idx1 idx2 width : Nat) : Bool :=
  let r1 : Int := idx1 / width
  let c1 : Int := idx1 % width
  let r2 : Int := idx2 / width
  let c2 : Int := idx2 % width
  (r1 - r2).natAbs + (c1 - c2).natAbs == 1

/-- `matchesSize` (grid-utils): order-independent dimension match. -/
def matchesSize (w h : Nat) (sizes : List (Nat × Nat)) : Bool :=
  sizes.any (fun s => (w == s.1 && h == s.2) || (w == s.2 && h == s.1))

/-- `getGridSizeConfig`: `(maxCellsPerColor, minCellsPerColor)`. -/
def getGridSizeConfig (width height : Nat) : Nat × Nat :=
  let maxDim := max width height
  if maxDim ≤ 9 then (10, 6)
  else if matchesSize width height [(8, 11), (10, 10), (9, 12), (11, 11), (10, 13)] then (9, 6)
  else if matchesSize width height [(12, 12), (11, 14), (13, 13), (12, 15), (14, 14)] then (8, 6)
  else if matchesSize width height [(13, 16), (15, 15), (14, 17), (15, 18), (16, 19)] then (7, 6)
  else (6, 6)

/-- `calculateColorCounts` (part_009), returning `(minC, maxC)`; the
`shouldShowNumbers` flag is UI-only and dropped.  `Math.ceil(a/b)` is
`(a+b-1)/b` and `Math.floor(n * 0.75)` is `3n/4` (0.75 is float-exact). -/
def calculateColorCounts (width height maxPaletteSize : Nat) : Nat × Nat :=
  let totalCells := width * height
  let cfg := getGridSizeConfig width height
  let idealMinC := (totalCells + cfg.1 - 1) / cfg.1
  let idealMaxC := (totalCells + cfg.2 - 1) / cfg.2
  let calculatedMinC := max 4 idealMinC
  let calculatedMaxC := idealMaxC
  if maxPaletteSize < calculatedMaxC then
    (max 4 (maxPaletteSize * 3 / 4), maxPaletteSize)
  else
    (calculatedMinC, min maxPaletteSize (max calculatedMinC calculatedMaxC))

/-! ## PRNG model

`src/lib/prng.ts` is imported by the generator but absent from the provided
sources, so the PRNG is modelled from the spec (§4.2): `makeRng(seed) → () =>
float in [0,1)`, a deterministic "mulberry/xorshift-style" sequence from a
32-bit seed.  The spec fixes no formula, only determinism and the output
range, so we model it as an iterated LCG producing numerators `k ∈ [0,2^32)`
(value `k / 2^32`). -/

def lcgStep (x : Nat) : Nat := (1664525 * x + 1013904223) % 4294967296

/-- Modelled from the spec: the seeded deterministic stream of `prng.ts`'s
`mulberry32` (file missing from src); draw `n` of the stream for `seed`. -/
def mulberry32 (seed : Nat) : Nat → Nat :=
  fun n => lcgStep^[n + 1] (seed % 4294967296)

/-- A random source: a stream of numerators in `[0, 2^32)` plus a cursor. -/
structure Rng where
  stream : Nat → Nat
  pos : Nat

/-- Draw the next numerator `k` (value `k / 2^32`). -/
def Rng.next (r : Rng) : Nat × Rng :=
  (r.stream r.pos % 4294967296, ⟨r.stream, r.pos + 1⟩)

/-- `Math.floor(random() * n)`: exactly `k * n / 2^32` for the numerator `k`
(the float products are `< 2^53`, hence exact). -/
def randIndex (r : Rng) (n : Nat) : Nat × Rng :=
  let p := r.next
  (p.1 * n / 4294967296, p.2)

/-- `random() < 0.3`: the float64 nearest 0.3 is just below 3/10, and
`k / 2^32` is below it iff `k < 1288490189`. -/
def randBelow03 (r : Rng) : Bool × Rng :=
  let p := r.next
  (p.1 < 1288490189, p.2)

/-- The primary generator's color-count pick (level-generator line 211):
`Math.min(paletteLen, Math.floor(random() * (maxC - minC + 1) + minC))`,
as a function of the raw draw `k`.  It is computed once, before the attempt
loop. -/
def targetColorsOf (paletteLen minC maxC k : Nat) : Nat :=
  min paletteLen ((k % 4294967296) * (maxC + 1 - minC) / 4294967296 + minC)

/-! ## Data model -/

/-- One entry of `solvedPaths`. -/
structure SolvedPath where
  colorId : Nat
  path : List Nat
deriving Repr, DecidableEq

/-- `LevelData` restricted to the fields this subsystem reads.  `anchors` is
the write list of the JS record `cell ↦ {colorId, type: 'endpoint'}` (the
`type` field is constant and dropped). -/
structure LevelData where
  width : Nat
  height : Nat
  anchors : List (Nat × Nat)
  difficulty : Nat
  solvedPaths : List SolvedPath
deriving Repr, DecidableEq

structure ValidationResult where
  isValid : Bool
  error : Option String
deriving Repr, DecidableEq

/-! ## Validator (`validateNumberlinkRules`, level-validator.ts) -/

/-- Rules 1 & 3 loop: per color (ascending id), check anchor count, path
existence/length, endpoints, distinctness, and no anchor mid-path; first
violation short-circuits with its error string. -/
def checkColorRules (solvedPaths : List SolvedPath) : List (Nat × List Nat) → Option String
  | [] => none
  | (colorId, cells) :: rest =>
    if cells.length ≠ 2 then
      some ("Color " ++ toString colorId ++ " must have exactly 2 anchors")
    else
      match solvedPaths.find? (fun p => p.colorId == colorId) with
      | none => some ("Color " ++ toString colorId ++ " has no valid path")
      | some p =>
        if p.path.length < 2 then
          some ("Color " ++ toString colorId ++ " has no valid path")
        else
          let pathStart := p.path.getD 0 0
          let pathEnd := (p.path.getLast?).getD 0
          if !(cells.contains pathStart) || !(cells.contains pathEnd) then
            some ("Color " ++ toString colorId ++ " anchors not at path endpoints")
          else if pathStart == pathEnd then
            some ("Color " ++ toString colorId ++ " has same start and end anchor")
          else if ((p.path.drop 1).dropLast).any (fun c => cells.contains c) then
            some ("Color " ++ toString colorId ++ " anchor appears in middle of path")
          else
            checkColorRules solvedPaths rest

/-- Rule 2 scan: first cell hit twice across the concatenated paths. -/
def overlapError (solvedPaths : List SolvedPath) : Option String :=
  (firstDup ((solvedPaths.map (·.path)).flatten)).map
    (fun c => "Paths overlap at cell " ++ toString c)

/-- Rule 4 scan: the `Set` of all path cells must have size `width*height`. -/
def coverageError (size : Nat) (solvedPaths : List SolvedPath) : Option String :=
  let filled := (((solvedPaths.map (·.path)).flatten).eraseDups).length
  if filled ≠ size then
    some ("Grid not fully filled: " ++ toString filled ++ "/" ++ toString size ++ " cells")
  else none

/-- Non-branching scan for one path: endpoints must have exactly 1 in-path
orthogonal neighbour, interior cells exactly 2. -/
def branchingErrorOfPath (width height : Nat) (p : SolvedPath) : Option String :=
  (List.range p.path.length).findSome? (fun i =>
    let cell := p.path.getD i 0
    let pathNeighbors := (getNeighbors cell width height).filter (fun n => p.path.contains n)
    if i == 0 || i == p.path.length - 1 then
      if pathNeighbors.length ≠ 1 then
        some ("Path for color " ++ toString p.colorId ++ " has branching at endpoint")
      else none
    else
      if pathNeighbors.length ≠ 2 then
        some ("Path for color " ++ toString p.colorId ++ " has branching at cell " ++ toString cell)
      else none)

def branchingError (width height : Nat) (solvedPaths : List SolvedPath) : Option String :=
  solvedPaths.findSome? (branchingErrorOfPath width height)

/-- Rule 5 scan: no immediate reversal `prev = next`. -/
def uturnErrorOfPath (p : SolvedPath) : Option String :=
  (List.range p.path.length).findSome? (fun i =>
    if 1 ≤ i ∧ i < p.path.length - 1 then
      if p.path.getD (i - 1) 0 == p.path.getD (i + 1) 0 then
        some ("Path for color " ++ toString p.colorId ++ " contains U-turn at cell "
          ++ toString (p.path.getD i 0))
      else none
    else none)

def uturnError (solvedPaths : List SolvedPath) : Option String :=
  solvedPaths.findSome? uturnErrorOfPath

/-- `validateNumberlinkRules(levelData)` — the checks run in source order and
the first failure wins. -/
def validateNumberlinkRules (levelData : LevelData) : ValidationResult :=
  let size := levelData.width * levelData.height
  if levelData.solvedPaths.length == 0 then
    ⟨false, some "No solved paths found"⟩
  else
    match checkColorRules levelData.solvedPaths (colorGroups (objEntries levelData.anchors)) with
    | some e => ⟨false, some e⟩
    | none =>
      match overlapError levelData.solvedPaths with
      | some e => ⟨false, some e⟩
      | none =>
        match coverageError size levelData.solvedPaths with
        | some e => ⟨false, some e⟩
        | none =>
          match branchingError levelData.width levelData.height levelData.solvedPaths with
          | some e => ⟨false, some e⟩
          | none =>
            match uturnError levelData.solvedPaths with
            | some e => ⟨false, some e⟩
            | none => ⟨true, none⟩

/-! ## Primary generator (`generateLevel`, level-generator source in
level-validator.ts) -/

/-- `validateAnchors(anchors, width)` (level-generator): every color has
exactly 2 anchors and they are not orthogonally adjacent. -/
def validateAnchors (anchors : List (Nat × Nat)) (width : Nat) : Bool :=
  (colorGroups (objEntries anchors)).all (fun g =>
    g.2.length == 2 && !areAdjacent (g.2.getD 0 0) (g.2.getD 1 0) width)

/-- Pointwise grid update (`grid[i] = v`). -/
def updGrid (g : Nat → Int) (i : Nat) (v : Int) : Nat → Int :=
  fun j => if j = i then v else g j

/-- Start-cell heuristic: sample `count` random empty cells, keep the one with
the fewest free neighbours (strict improvement only, so the first minimum
found wins). -/
def sampleStartLoop (w h : Nat) (grid : Nat → Int) (emptyIndices : List Nat) :
    Nat → Nat → Option Nat → Rng → Option Nat × Rng
  | 0, _, start, rng => (start, rng)
  | k + 1, best, start, rng =>
    let p := randIndex rng emptyIndices.length
    let idx := emptyIndices.getD p.1 0
    let freeNeighbors := ((getNeighbors idx w h).filter (fun n => grid n == -1)).length
    if freeNeighbors < best then
      sampleStartLoop w h grid emptyIndices k freeNeighbors (some idx) p.2
    else
      sampleStartLoop w h grid emptyIndices k best start p.2

/-- The `validMoves` filter of the path-growing loop: the move target must be
empty, must not make the path touch itself (no other in-path neighbour besides
the current tail), and — for grids under 400 cells — must not strand a
neighbouring empty cell with no other empty neighbour. -/
def isValidMove (w h size colorId curr : Nat) (grid : Nat → Int) (next : Nat) : Bool :=
  if grid next != -1 then false
  else if (getNeighbors next w h).any (fun nn => grid nn == (colorId : Int) && nn != curr) then
    false
  else if size < 400 then
    !((getNeighbors curr w h).any (fun n =>
      n != next && grid n == -1 &&
      ((getNeighbors n w h).filter (fun nn => grid nn == -1 && nn != next)).length == 0))
  else true

/-- Path-growing loop: extend from `curr` while a valid move exists, choosing
uniformly among the valid moves.  Returns the updated grid, empty-cell list,
filled count, the grown path, and the RNG.  Fuel: each step deletes one cell
from `empty`, so the call site's `empty.length + 1` can never run out. -/
def growPath (w h size colorId : Nat) :
    Nat → (Nat → Int) → List Nat → Nat → List Nat → Nat → Rng →
    (Nat → Int) × List Nat × Nat × List Nat × Rng
  | 0, grid, emp, filled, path, _, rng => (grid, emp, filled, path, rng)
  | fuel + 1, grid, emp, filled, path, curr, rng =>
    let validMoves := (getNeighbors curr w h).filter (isValidMove w h size colorId curr grid)
    if validMoves.length == 0 then (grid, emp, filled, path, rng)
    else
      let p := randIndex rng validMoves.length
      let next := validMoves.getD p.1 0
      growPath w h size colorId fuel (updGrid grid next colorId) (emp.erase next)
        (filled + 1) (path ++ [next]) next p.2

/-- Fisher–Yates iteration `i+1` down to `1` (`j = ⌊random()*(i+1)⌋`, swap). -/
def shuffleAux : List Nat → Rng → Nat → List Nat × Rng
  | l, rng, 0 => (l, rng)
  | l, rng, i + 1 =>
    let p := randIndex rng (i + 2)
    shuffleAux ((l.set (i + 1) (l.getD p.1 0)).set p.1 (l.getD (i + 1) 0)) p.2 i

/-- The in-place Fisher–Yates shuffle both generators use. -/
def shuffleList (l : List Nat) (rng : Rng) : List Nat × Rng :=
  shuffleAux l rng (l.length - 1)

/-- `paths.forEach((p, i) => p.colorId = colorAssignments[i])`. -/
def assignColors (paths : List SolvedPath) (assign : List Nat) : List SolvedPath :=
  paths.mapIdx (fun i p => { p with colorId := assign.getD i 0 })

/-- Anchor writes from each path's first and last cell, in path order. -/
def buildAnchors (paths : List SolvedPath) : List (Nat × Nat) :=
  (paths.map (fun p =>
    [(p.path.getD 0 0, p.colorId), ((p.path.getLast?).getD 0, p.colorId)])).flatten

/-- State of one generation attempt. -/
structure FillState where
  grid : Nat → Int
  emp : List Nat
  filled : Nat
  paths : List SolvedPath
  rng : Rng

/-- The per-attempt fill loop: pick a start cell, grow a path, enforce the
minimum length 3 and the non-adjacent-endpoints rule (with a single extension
try), and repeat while cells remain and fewer than `targetColors` paths
exist.  Returns `none` on a stuck attempt — together with the RNG as consumed
so far (the stream state survives into the next attempt).  Fuel: every
iteration fills at least one cell, so `size + 1` iterations cannot be
reached; exhaustion is mapped to a stuck attempt. -/
def fillLoop (w h size targetColors : Nat) :
    Nat → FillState → Option FillState × Rng
  | 0, st => (none, st.rng)
  | fuel + 1, st =>
    if st.filled < size && st.emp.length != 0 && st.paths.length < targetColors then
      let emptyIndices := st.emp
      let s := sampleStartLoop w h st.grid emptyIndices (min emptyIndices.length 15) 99 none st.rng
      let startIdx := s.1.getD (emptyIndices.getD 0 0)
      let colorId := st.paths.length
      let g := growPath w h size colorId (((st.emp.erase startIdx).length) + 1)
        (updGrid st.grid startIdx colorId) (st.emp.erase startIdx) (st.filled + 1)
        [startIdx] startIdx s.2
      let grid2 := g.1
      let emp2 := g.2.1
      let filled2 := g.2.2.1
      let path2 := g.2.2.2.1
      let rng2 := g.2.2.2.2
      if path2.length < 3 then (none, rng2)
      else if areAdjacent (path2.getD 0 0) ((path2.getLast?).getD 0) w then
        let lastCell := (path2.getLast?).getD 0
        let validExtensions := (getNeighbors lastCell w h).filter
          (fun next => grid2 next == -1 && !path2.contains next)
        if validExtensions.length == 0 then (none, rng2)
        else
          let p := randIndex rng2 validExtensions.length
          let ext := validExtensions.getD p.1 0
          fillLoop w h size targetColors fuel
            { grid := updGrid grid2 ext colorId, emp := emp2.erase ext,
              filled := filled2 + 1, paths := st.paths ++ [⟨colorId, path2 ++ [ext]⟩],
              rng := p.2 }
      else
        fillLoop w h size targetColors fuel
          { grid := grid2, emp := emp2, filled := filled2,
            paths := st.paths ++ [⟨colorId, path2⟩], rng := rng2 }
    else (some st, st.rng)

/-- The attempts loop of `generateLevel`: run attempts until one passes the
success checks (`!stuck && filledCount === size && paths.length >= minC`,
then `paths.length === targetColors` after shuffling the color assignment,
then `validateAnchors`) or the budget runs out.  Returns the level on success
and the final RNG state either way. -/
def attemptsLoop (w h size minC targetColors : Nat) :
    Nat → Rng → Option LevelData × Rng
  | 0, rng => (none, rng)
  | n + 1, rng =>
    let grid0 : Nat → Int := fun _ => -1
    let st0 : FillState :=
      { grid := grid0, emp := (List.range size).filter (fun i => grid0 i == -1),
        filled := 0, paths := [], rng := rng }
    match fillLoop w h size targetColors (size + 1) st0 with
    | (none, rng2) => attemptsLoop w h size minC targetColors n rng2
    | (some st, _) =>
      if st.filled == size && minC ≤ st.paths.length then
        let sh := shuffleList (List.range targetColors) st.rng
        if st.paths.length != targetColors then
          attemptsLoop w h size minC targetColors n sh.2
        else
          let assigned := assignColors st.paths sh.1
          let anchors := buildAnchors assigned
          if validateAnchors anchors w then
            (some { width := w, height := h, anchors := anchors,
                    difficulty := assigned.length, solvedPaths := assigned }, sh.2)
          else attemptsLoop w h size minC targetColors n sh.2
      else attemptsLoop w h size minC targetColors n st.rng

/-! ## Fallback generator (`generateFallbackLevel`) -/

/-- Manhattan distance between two linear indices. -/
def manhattan (a b w : Nat) : Nat :=
  ((a / w : Int) - (b / w : Int)).natAbs + ((a % w : Int) - (b % w : Int)).natAbs

/-- Snake-direction preference: 0 right, 1 down, 2 left, 3 up. -/
def isPreferredDir (dir current n w : Nat) : Bool :=
  let r := n / w
  let c := n % w
  let currR := current / w
  let currC := current % w
  (dir == 0 && currC < c) || (dir == 1 && currR < r) ||
  (dir == 2 && c < currC) || (dir == 3 && r < currR)

/-- One region's snake-pattern DFS (phase 1).  The JS array stack (push at
end, pop from end) is modelled with its top at the list head, so pushing
`allNeighbors` in order prepends them reversed.  Each iteration pops one
entry; at most `1 + 4·size` entries are ever pushed, so the call site's fuel
`5·size + 5` cannot run out. -/
def regionDFS (w h targetSize colorId : Nat) :
    Nat → List Nat → List Nat → List Nat → (Nat → Int) → Nat → Rng →
    List Nat × List Nat × (Nat → Int) × Rng
  | 0, _, region, visited, grid, _, rng => (region, visited, grid, rng)
  | fuel + 1, stack, region, visited, grid, dir, rng =>
    if stack.length != 0 && region.length < targetSize then
      match stack with
      | [] => (region, visited, grid, rng)
      | current :: stackRest =>
        if visited.contains current || grid current != -1 then
          regionDFS w h targetSize colorId fuel stackRest region visited grid dir rng
        else
          let visited2 := current :: visited
          let region2 := region ++ [current]
          let grid2 := updGrid grid current colorId
          let fresh := (getNeighbors current w h).filter
            (fun n => !visited2.contains n && grid2 n == -1)
          let preferredNeighbors := fresh.filter (isPreferredDir dir current · w)
          let otherNeighbors := fresh.filter (fun n => !isPreferredDir dir current n w)
          let sh := shuffleList (preferredNeighbors ++ otherNeighbors) rng
          let stack2 := sh.1.reverse ++ stackRest
          let b := randBelow03 sh.2
          if b.1 then
            let p := randIndex b.2 4
            regionDFS w h targetSize colorId fuel stack2 region2 visited2 grid2 p.1 p.2
          else
            regionDFS w h targetSize colorId fuel stack2 region2 visited2 grid2 dir b.2
    else (region, visited, grid, rng)

/-- Phase 1 loop over colors: one region per color, stopping early (`break`)
when no unvisited cell remains. -/
def regionsLoop (w h size numColors targetCellsPerPath remainder : Nat) :
    Nat → Nat → List (List Nat) → List Nat → (Nat → Int) → Rng →
    List (List Nat) × List Nat × (Nat → Int) × Rng
  | 0, _, regions, visited, grid, rng => (regions, visited, grid, rng)
  | colorsLeft + 1, colorId, regions, visited, grid, rng =>
    let targetSize := targetCellsPerPath + (if colorId < remainder then 1 else 0)
    match (List.range size).find? (fun i => !visited.contains i) with
    | none => (regions, visited, grid, rng)
    | some startIdx =>
      let p := randIndex rng 4
      let d := regionDFS w h targetSize colorId (5 * size + 5) [startIdx] [] visited grid p.1 p.2
      regionsLoop w h size numColors targetCellsPerPath remainder colorsLeft (colorId + 1)
        (regions ++ [d.1]) d.2.1 d.2.2.1 d.2.2.2

/-- Phase 2: assign each still-empty cell to the region whose middle-indexed
cell is nearest in Manhattan distance (JS `Infinity` initial distance is
modelled by a sentinel larger than any reachable distance).  When `regions`
is empty, `nearestRegion` stays at its initial 0 and the JS
`regions[nearestRegion].push(i)` throws a `TypeError` (`regions[0]` is
`undefined`); that throw is modelled as `none`. -/
def cutLoop (w : Nat) : List Nat → (Nat → Int) → List (List Nat) →
    Option ((Nat → Int) × List (List Nat))
  | [], grid, regions => some (grid, regions)
  | i :: rest, grid, regions =>
    if grid i == -1 then
      let pick := (List.range regions.length).foldl (fun acc j =>
        if (regions.getD j []).length == 0 then acc
        else
          let reg := regions.getD j []
          let center := reg.getD (reg.length / 2) 0
          let dist := manhattan i center w
          if dist < acc.2 then (j, dist) else acc) (0, 1000000000)
      if pick.1 < regions.length then
        cutLoop w rest (updGrid grid i pick.1)
          (regions.set pick.1 (regions.getD pick.1 [] ++ [i]))
      else none
    else cutLoop w rest grid regions

/-- Phase 3 DFS through a region, preferring neighbours with fewer remaining
unvisited in-region neighbours (stable sort).  Fuel bounds the recursion
depth, which never exceeds the region size; the call site passes `size + 2`. -/
def dfsPath (w h : Nat) (regionSet : List Nat) :
    Nat → Nat → List Nat × List Nat → List Nat × List Nat
  | 0, _, st => st
  | fuel + 1, idx, st =>
    if st.1.contains idx || !regionSet.contains idx then st
    else
      let visited2 := idx :: st.1
      let path2 := st.2 ++ [idx]
      let valid := (getNeighbors idx w h).filter
        (fun n => regionSet.contains n && !visited2.contains n)
      let sorted := sortByKey (fun a =>
        ((getNeighbors a w h).filter
          (fun n => regionSet.contains n && !visited2.contains n)).length) valid
      sorted.foldl (fun acc nb => dfsPath w h regionSet fuel nb acc) (visited2, path2)

/-- Splice the cells the DFS missed into the path (next to an adjacent path
cell when one exists, else appended). -/
def spliceRemaining (w h : Nat) (remaining : List Nat) (path : List Nat) : List Nat :=
  remaining.foldl (fun path cell =>
    let pathNeighbors := (getNeighbors cell w h).filter (fun n => path.contains n)
    match pathNeighbors with
    | [] => path ++ [cell]
    | pn :: _ => insertAtIdx path (jsIndexOf path pn + 1) cell) path

/-- Phase 3 for one region: linearize, then enforce length ≥ 3 and
non-adjacent endpoints (truncating at a better endpoint when possible);
regions that cannot yield a ≥ 3-cell path are dropped. -/
def regionToPaths (w h size colorId : Nat) (region : List Nat)
    (paths : List SolvedPath) : List SolvedPath :=
  if region.length == 0 then paths
  else
    let startCell := (region.find? (fun cell =>
      cell / w == 0 || cell / w == h - 1 || cell % w == 0 || cell % w == w - 1)).getD
      (region.getD 0 0)
    let d := dfsPath w h region (size + 2) startCell ([], [])
    let path0 := d.2
    let path1 :=
      if path0.length < region.length then
        spliceRemaining w h (region.filter (fun c => !d.1.contains c)) path0
      else path0
    if 3 ≤ path1.length && !areAdjacent (path1.getD 0 0) ((path1.getLast?).getD 0) w then
      paths ++ [⟨colorId, path1⟩]
    else if 3 ≤ path1.length then
      let betterEnd :=
        match ((List.range' 1 (path1.length - 2)).reverse).find?
          (fun i => !areAdjacent (path1.getD 0 0) (path1.getD i 0) w) with
        | some i => path1.getD i 0
        | none => (path1.getLast?).getD 0
      let endIdx := jsIndexOf path1 betterEnd
      if 0 < endIdx && endIdx < path1.length - 1 then
        let adjustedPath := path1.take (endIdx + 1)
        if 3 ≤ adjustedPath.length then paths ++ [⟨colorId, adjustedPath⟩] else paths
      else paths ++ [⟨colorId, path1⟩]
    else paths

/-- The anchor-repair pass run when `validateAnchors` fails on fallback
output: for each color with exactly two, adjacent anchors, move the second
anchor to the first non-adjacent cell of that color's path (colors with a
different anchor count are dropped).  The `paths.find` uses
`p.colorId % paletteLen`, which never matches when `paletteLen = 0` (JS `%0`
is `NaN`). -/
def fixAnchors (width paletteLen : Nat) (anchors : List (Nat × Nat))
    (paths : List SolvedPath) : List (Nat × Nat) :=
  (colorGroups (objEntries anchors)).foldl (fun acc g =>
    if g.2.length == 2 then
      let a1 := g.2.getD 0 0
      let a2 := g.2.getD 1 0
      let pathOpt := if paletteLen == 0 then none
        else paths.find? (fun p => p.colorId % paletteLen == g.1)
      match pathOpt with
      | some p =>
        if areAdjacent a1 a2 width then
          let newAnchor2 :=
            match (List.range' 1 (p.path.length - 2)).find?
              (fun i => !areAdjacent a1 (p.path.getD i 0) width) with
            | some i => p.path.getD i 0
            | none => a2
          acc ++ [(a1, g.1), (newAnchor2, g.1)]
        else acc ++ [(a1, g.1), (a2, g.1)]
      | none => acc ++ [(a1, g.1), (a2, g.1)]
    else acc) []

/-- `generateFallbackLevel(width, height, minC, maxC, palette, random,
paletteLen)`: distributed snake DFS partition, nearest-region cut, and
Hamiltonian-like linearization.  `palette` enters only through `paletteLen`.
With `numColors = 0` the JS `size / 0 = Infinity` and `size % 0 = NaN` feed a
zero-iteration region loop, matching the Nat-division values used here; the
cut phase then throws (`cutLoop` is `none`), so the result is `none` — this
function is not total on its JS domain. -/
def generateFallbackLevel (width height minC maxC : Nat) (rng : Rng)
    (paletteLen : Nat) : Option LevelData :=
  let size := width * height
  let p0 := rng.next
  let numColors := min paletteLen (max minC (p0.1 * (maxC + 1 - minC) / 4294967296 + minC))
  let grid0 : Nat → Int := fun _ => -1
  let targetCellsPerPath := size / numColors
  let remainder := size % numColors
  let r := regionsLoop width height size numColors targetCellsPerPath remainder
    numColors 0 [] [] grid0 p0.2
  match cutLoop width (List.range size) r.2.2.1 r.1 with
  | none => none
  | some cut =>
    let regions := cut.2
    let paths := (List.range regions.length).foldl
      (fun paths colorId =>
        regionToPaths width height size colorId (regions.getD colorId []) paths)
      []
    let sh := shuffleList (List.range numColors) r.2.2.2
    let assigned := paths.mapIdx (fun i p =>
      { p with colorId := if i < numColors then sh.1.getD i 0 else sh.1.getD (i % numColors) 0 })
    let anchors := buildAnchors assigned
    if validateAnchors anchors width then
      some { width := width, height := height, anchors := anchors,
             difficulty := assigned.length, solvedPaths := assigned }
    else
      let fixedAnchors := fixAnchors width paletteLen anchors assigned
      if validateAnchors fixedAnchors width then
        some { width := width, height := height, anchors := fixedAnchors,
               difficulty := assigned.length, solvedPaths := assigned }
      else
        some { width := width, height := height, anchors := anchors,
               difficulty := assigned.length, solvedPaths := assigned }

/-! ## `generateLevel` -/

/-- `seed ? mulberry32(seed) : Math.random` — note the truthiness test: a
supplied seed of `0` falls back to the ambient (`Math.random`) stream. -/
def initStream (seed : Option Nat) (ambient : Nat → Nat) : Nat → Nat :=
  match seed with
  | some s => if s == 0 then ambient else mulberry32 s
  | none => ambient

/-- `generateLevel` with the random stream already chosen.  `palette` is
modelled by its length (`some n` = an array of `n` colors, `none` = `null`,
giving the default length 20); `maxAttempts` defaults to
`BACKGROUND_GENERATION.MAX_ATTEMPTS_PER_LEVEL = 2000` via `??` (so an
explicit 0 is kept).  Returns `some (level, usedFallback)`; `none` models
the uncaught `TypeError` that propagates out of the fallback when it is
reached with `numColors = 0`. -/
def generateLevelCore (width height minC maxC : Nat) (palette : Option Nat)
    (stream : Nat → Nat) (maxAttempts : Option Nat) : Option (LevelData × Bool) :=
  let size := width * height
  let paletteLen := palette.getD 20
  let p0 := Rng.next ⟨stream, 0⟩
  let targetColors := min paletteLen (p0.1 * (maxC + 1 - minC) / 4294967296 + minC)
  let attemptsLimit := maxAttempts.getD 2000
  match attemptsLoop width height size minC targetColors attemptsLimit p0.2 with
  | (some level, _) => some (level, false)
  | (none, rng2) =>
    (generateFallbackLevel width height minC maxC rng2 paletteLen).map
      (fun l => (l, true))

/-- `generateLevel(width, height, minC, maxC, palette, seed?, maxAttempts?)`.
The ambient stream models the global `Math.random` source used when no
(truthy) seed is supplied.  `none` models an uncaught throw (see
`generateLevelCore`). -/
def generateLevel (width height minC maxC : Nat) (palette : Option Nat)
    (seed : Option Nat) (maxAttempts : Option Nat) (ambient : Nat → Nat) :
    Option (LevelData × Bool) :=
  generateLevelCore width height minC maxC palette (initStream seed ambient) maxAttempts

/-! ## Hashing and the uniqueness-seeking loop
(`src/utils/level-generation-utils.ts`) -/

/-- Modelled from the spec: `generateLevelHash` of `src/lib/level-compression.ts`
(file missing from src).  Per §4.6 the fingerprint is a deterministic string
of `width`, `height` and the sorted `(cellIndex, colorId)` anchor pairs; no
concrete format is fixed, so we use a canonical textual rendering (nonempty
by construction). -/
def generateLevelHash (lvl : LevelData) : String :=
  toString lvl.width ++ "x" ++ toString lvl.height ++ ":" ++
    String.intercalate "," ((sortByKey (·.1) (objEntries lvl.anchors)).map
      (fun e => toString e.1 ++ "-" ++ toString e.2))

structure GenerateUniqueLevelResult where
  level : Option LevelData
  hash : Option String
  isUnique : Bool
  attempts : Nat
deriving Repr, DecidableEq

/-- The retry loop of `generateUniqueLevelSync`: per attempt, generate with
`seedGenerator(attempt)`, discard invalid candidates, accept the first valid
candidate whose (truthy) hash is not already seen.  Each attempt's body is
wrapped in `try/catch` in the source, so a throw inside `generateLevel`
(modelled as `none`) just moves on to the next attempt; when `generateLevel`
returns, its `level` field is a non-null object, so the source's
`if (!level) continue` guard is dead.  `hash &&` is the JS truthiness test,
i.e. `hash ≠ ""`.  The loop never writes to `existingHashes` (the source only
calls `.has`).  The global `Math.random` source is modelled by `ambientFam`:
attempt `i` consumes the stream `ambientFam i` when its seed is falsy (any
real execution corresponds to some such family). -/
def gusLoop (width height minC maxC : Nat) (palette : Option Nat)
    (existingHashes : List String) (seedGenerator : Nat → Nat)
    (ambientFam : Nat → Nat → Nat) (maxAttempts : Nat) :
    Nat → Nat → GenerateUniqueLevelResult
  | _, 0 => ⟨none, none, false, maxAttempts⟩
  | attempt, remaining + 1 =>
    match generateLevel width height minC maxC palette
      (some (seedGenerator attempt)) none (ambientFam attempt) with
    | none =>
      gusLoop width height minC maxC palette existingHashes seedGenerator ambientFam
        maxAttempts (attempt + 1) remaining
    | some result =>
      let level := result.1
      if !(validateNumberlinkRules level).isValid then
        gusLoop width height minC maxC palette existingHashes seedGenerator ambientFam
          maxAttempts (attempt + 1) remaining
      else
        let hash := generateLevelHash level
        if hash != "" && !existingHashes.contains hash then
          ⟨some level, some hash, true, attempt + 1⟩
        else
          gusLoop width height minC maxC palette existingHashes seedGenerator ambientFam
            maxAttempts (attempt + 1) remaining

/-- `generateUniqueLevelSync(options)` with `maxAttempts` and `seedGenerator`
explicit (their defaults are 200 and an ambient-random seed pick). -/
def generateUniqueLevelSync (width height minC maxC : Nat) (palette : Option Nat)
    (existingHashes : List String) (maxAttempts : Nat) (seedGenerator : Nat → Nat)
    (ambientFam : Nat → Nat → Nat) : GenerateUniqueLevelResult :=
  gusLoop width height minC maxC palette existingHashes seedGenerator ambientFam
    maxAttempts 0 maxAttempts

/-! ## Daily challenge (`src/lib/daily-challenge.ts`)

`dateToSeed` runs `new Date("YYYY-MM-DD")` — which ECMAScript parses as UTC
midnight — and then reads `getFullYear/getMonth/getDate`, which use *local*
time.  The host's UTC offset (in minutes, as a parameter `tzOffsetMinutes`)
therefore shifts which civil date the fields describe. -/

/-- Days from the civil epoch 1970-01-01 (Gregorian; Hinnant's algorithm). -/
def daysFromCivil (y : Int) (m d : Nat) : Int :=
  let y : Int := if m ≤ 2 then y - 1 else y
  let era : Int := (if 0 ≤ y then y else y - 399) / 400
  let yoe : Int := y - era * 400
  let mp : Int := ((m : Int) + 9) % 12
  let doy : Int := (153 * mp + 2) / 5 + (d : Int) - 1
  let doe : Int := yoe * 365 + yoe / 4 - yoe / 100 + doy
  era * 146097 + doe - 719468

/-- Civil date `(y, m, d)` from days since 1970-01-01. -/
def civilFromDays (z : Int) : Int × Nat × Nat :=
  let z := z + 719468
  let era : Int := (if 0 ≤ z then z else z - 146096) / 146097
  let doe : Int := z - era * 146097
  let yoe : Int := (doe - doe / 1460 + doe / 36524 - doe / 146096) / 365
  let y : Int := yoe + era * 400
  let doy : Int := doe - (365 * yoe + yoe / 4 - yoe / 100)
  let mp : Int := (5 * doy + 2) / 153
  let d : Int := doy - (153 * mp + 2) / 5 + 1
  let m : Int := if mp < 10 then mp + 3 else mp - 9
  (if m ≤ 2 then y + 1 else y, m.toNat, d.toNat)

/-- `dateToSeed(dateString)` for the date string "y-m-d": parse as UTC
midnight, read the civil date in local time (UTC plus `tzOffsetMinutes`),
return `year*10000 + month*100 + day`. -/
def dateToSeed (y : Int) (m d : Nat) (tzOffsetMinutes : Int) : Int :=
  let utcDays := daysFromCivil y m d
  let localDays := (1440 * utcDays + tzOffsetMinutes).fdiv 1440
  let c := civilFromDays localDays
  c.1 * 10000 + (c.2.1 : Int) * 100 + (c.2.2 : Int)

/-- `generateDailyChallenge()`: today's local date (modelled as the
parameters `y m d`) is formatted as "YYYY-MM-DD" by `getTodayDateString`,
converted by `dateToSeed`, and fed to the seeded generator on the fixed 8×8
grid with the WATER palette (20 colors) and the shared color-count
heuristic; the source returns `result.level`. -/
def generateDailyChallenge (y : Int) (m d : Nat) (tzOffsetMinutes : Int)
    (ambient : Nat → Nat) : Option LevelData :=
  let seed := dateToSeed y m d tzOffsetMinutes
  let counts := calculateColorCounts 8 8 20
  (generateLevel 8 8 counts.1 counts.2 (some 20) (some seed.toNat) none ambient).map
    (fun r => r.1)

/-! ## Claim C2 — fallback on a zero attempt budget -/

/-- The all-zeros ambient stream used in several concrete runs. -/
def zeroStream : Nat → Nat := fun _ => 0

/-- The nearest-region fold keeps its accumulator index or picks a list
element, so it stays below any common bound. -/
theorem pick_fst_lt (n : Nat) (g : Nat × Nat → Nat → Nat × Nat)
    (hg : ∀ acc j, (g acc j).1 = acc.1 ∨ (g acc j).1 = j) :
    ∀ (l : List Nat) (acc : Nat × Nat), (∀ j ∈ l, j < n) → acc.1 < n →
      (l.foldl g acc).1 < n := by
  intro l
  induction l with
  | nil => intro acc _ h; exact h
  | cons j rest ih =>
    intro acc hmem hacc
    simp only [List.foldl_cons]
    refine ih _ (fun x hx => hmem x (List.mem_cons_of_mem _ hx)) ?_
    rcases hg acc j with h | h
    · rw [h]; exact hacc
    · rw [h]; exact hmem j (List.mem_cons_self _ _)

/-- The cut phase never throws when the region list is nonempty: the
nearest-region index is then always in range. -/
theorem cutLoop_isSome (w : Nat) : ∀ (cells : List Nat) (grid : Nat → Int)
    (regions : List (List Nat)), regions ≠ [] →
    ∃ out, cutLoop w cells grid regions = some out := by
  intro cells
  induction cells with
  | nil => intro grid regions _; exact ⟨(grid, regions), rfl⟩
  | cons i rest ih =>
    intro grid regions h
    have hlen : 0 < regions.length := List.length_pos.2 h
    simp only [cutLoop]
    by_cases hg : (grid i == -1) = true
    · rw [if_pos hg]
      have hpick : ((List.range regions.length).foldl (fun acc j =>
          if (regions.getD j []).length == 0 then acc
          else
            let reg := regions.getD j []
            let center := reg.getD (reg.length / 2) 0
            let dist := manhattan i center w
            if dist < acc.2 then (j, dist) else acc) (0, 1000000000)).1 <
          regions.length := by
        refine pick_fst_lt regions.length _ ?_ _ _ (fun j hj => List.mem_range.1 hj) hlen
        intro acc j
        dsimp only
        split
        · exact Or.inl rfl
        · split
          · exact Or.inr rfl
          · exact Or.inl rfl
      rw [if_pos hpick]
      exact ih _ _ (List.length_pos.1 (by rw [List.length_set]; exact hlen))
    · rw [if_neg hg]
      exact ih _ _ h

/-- The region loop only ever appends to its region list. -/
theorem regionsLoop_length_le (w h size numColors tcp rem : Nat) :
    ∀ (fuel colorId : Nat) (regions : List (List Nat)) (visited : List Nat)
      (grid : Nat → Int) (rng : Rng),
      regions.length ≤
        (regionsLoop w h size numColors tcp rem fuel colorId regions visited grid
          rng).1.length := by
  intro fuel
  induction fuel with
  | zero => intro _ regions _ _ _; exact le_refl _
  | succ f ih =>
    intro colorId regions visited grid rng
    simp only [regionsLoop]
    cases hf : (List.range size).find? (fun i => !visited.contains i) with
    | none => exact le_refl _
    | some startIdx => exact le_trans (by simp) (ih _ _ _ _ _)

/-- With at least one color and one cell, the region loop produces at least
one region. -/
theorem regionsLoop_ne_nil (w h size numColors tcp rem : Nat) (fuel : Nat)
    (grid : Nat → Int) (rng : Rng) (hf : 1 ≤ fuel) (hs : 1 ≤ size) :
    (regionsLoop w h size numColors tcp rem fuel 0 [] [] grid rng).1 ≠ [] := by
  obtain ⟨f, rfl⟩ : ∃ f, fuel = f + 1 := ⟨fuel - 1, by omega⟩
  simp only [regionsLoop]
  have hfind : (List.range size).find? (fun i => !List.contains ([] : List Nat) i) =
      some 0 := by
    obtain ⟨s, rfl⟩ : ∃ s, size = s + 1 := ⟨size - 1, by omega⟩
    rw [List.range_succ_eq_map]
    exact List.find?_cons_of_pos _ (by rfl)
  rw [hfind]
  exact List.length_pos.1
    (lt_of_lt_of_le (by simp) (regionsLoop_length_le w h size numColors tcp rem f 1 _ _ _ _))

/-- With a nonzero `minC` and a nonempty palette the sampled `numColors` is
positive, so the fallback generator returns a level instead of throwing. -/
theorem generateFallbackLevel_isSome (width height minC maxC : Nat) (rng : Rng)
    (paletteLen : Nat) (hs : 1 ≤ width * height) (hmc : 1 ≤ minC) (hp : 1 ≤ paletteLen) :
    ∃ lvl, generateFallbackLevel width height minC maxC rng paletteLen = some lvl := by
  have hnc : 1 ≤ min paletteLen (max minC
      (rng.next.1 * (maxC + 1 - minC) / 4294967296 + minC)) :=
    le_min hp (le_trans hmc (le_max_left _ _))
  simp only [generateFallbackLevel]
  obtain ⟨out, hout⟩ := cutLoop_isSome width (List.range (width * height)) _ _
    (regionsLoop_ne_nil width height (width * height) _ _ _ _ _ _ hnc hs)
  rw [hout]
  dsimp only
  split
  · exact ⟨_, rfl⟩
  · split
    · exact ⟨_, rfl⟩
    · exact ⟨_, rfl⟩

/-- C2 (counterexample).  The claim — with attempt budget 0 `generateLevel`
reports `usedFallback = true` and the fallback puzzle's `solvedPaths` cover
every cell exactly once — fails twice over: on the 3×3 grid with
`minColors = maxColors = 4` and the all-zeros stream the fallback partitions
the grid into one 3-cell region and three 2-cell regions, drops every region
shorter than 3 cells, and returns a puzzle whose paths miss cell 3 (they
cover only 3 of the 9 cells); and with `minColors = maxColors = 0` the
sampled `numColors` is 0, the region list is empty, and the cut phase throws
(`generateLevel` is `none`) instead of returning at all. -/
theorem C2_counterexample :
    (generateLevel 3 3 4 4 none none (some 0) zeroStream).map (fun r => r.2) = some true ∧
    (generateLevel 3 3 4 4 none none (some 0) zeroStream).map
      (fun r => r.1.solvedPaths.any (fun p => p.path.contains 3)) = some false ∧
    generateLevel 3 3 0 0 none none (some 0) zeroStream = none := by
  refine ⟨by decide, by decide, by decide⟩

/-- C2 (amended).  With an attempt budget of 0 the primary loop never runs,
so whenever `generateLevel` returns it reports `usedFallback = true`; it does
return (rather than throw) whenever `minColors ≥ 1` and the palette is
nonempty, since the sampled `numColors` is then positive.  Full coverage of
the fallback puzzle, however, can fail (see the counterexample). -/
theorem C2_budget_zero_usedFallback (width height minC maxC : Nat) (palette : Option Nat)
    (seed : Option Nat) (ambient : Nat → Nat)
    (hw : 3 ≤ width) (hh : 3 ≤ height) (hmc : 1 ≤ minC) (hp : 1 ≤ palette.getD 20) :
    ∃ lvl, generateLevel width height minC maxC palette seed (some 0) ambient =
      some (lvl, true) := by
  have hs : 1 ≤ width * height := le_trans (by norm_num) (Nat.mul_le_mul hw hh)
  obtain ⟨lvl, hl⟩ := generateFallbackLevel_isSome width height minC maxC
    (Rng.next ⟨initStream seed ambient, 0⟩).2 (palette.getD 20) hs hmc hp
  refine ⟨lvl, ?_⟩
  simp only [generateLevel, generateLevelCore, Option.getD_some, attemptsLoop]
  rw [hl]
  rfl

/-- C2 (witness for the amended theorem). -/
theorem C2_budget_zero_usedFallback_witness :
    ((3 : Nat) ≤ 3 ∧ (3 : Nat) ≤ 3 ∧ (1 : Nat) ≤ 4 ∧ (1 : Nat) ≤ (none : Option Nat).getD 20) ∧
    ∃ lvl, generateLevel 3 3 4 4 none none (some 0) zeroStream = some (lvl, true) :=
  ⟨⟨le_refl 3, le_refl 3, by norm_num, by norm_num⟩,
   C2_budget_zero_usedFallback 3 3 4 4 none none zeroStream (le_refl 3) (le_refl 3)
     (by norm_num) (by norm_num)⟩

/-! ## Claim C7 — seeded determinism -/

/-- Ambient stream picking the other end of the 3×1 grid first. -/
def otherStream : Nat → Nat := fun n => if n == 1 then 3000000000 else 0

/-- C7 (counterexample).  The claim quantifies over every supplied seed, but
`seed ? mulberry32(seed) : Math.random` treats the supplied seed 0 as falsy:
with `seed = 0` the generator reads the ambient `Math.random` stream, and two
calls with identical arguments can return different puzzles (here the 3×1
solution path comes out as `[0,1,2]` under one ambient stream and `[2,1,0]`
under another). -/
theorem C7_counterexample :
    generateLevel 3 1 1 1 none (some 0) none zeroStream ≠
      generateLevel 3 1 1 1 none (some 0) none otherStream := by
  decide

/-- C7 (amended).  For every *nonzero* supplied seed the chosen stream is
`mulberry32 seed`, so the result is independent of the ambient `Math.random`
state: seeded generation is a deterministic function of its arguments. -/
theorem C7_seeded_deterministic (width height minC maxC : Nat) (palette : Option Nat)
    (maxAttempts : Option Nat) (s : Nat) (hs : s ≠ 0) (amb1 amb2 : Nat → Nat) :
    generateLevel width height minC maxC palette (some s) maxAttempts amb1 =
      generateLevel width height minC maxC palette (some s) maxAttempts amb2 := by
  have hb : (s == 0) = false := by simpa using hs
  simp [generateLevel, initStream, hb]

/-- C7 (witness). -/
theorem C7_seeded_deterministic_witness :
    (1 : Nat) ≠ 0 ∧
    generateLevel 3 1 1 1 none (some 1) none zeroStream =
      generateLevel 3 1 1 1 none (some 1) none otherStream :=
  ⟨one_ne_zero,
   C7_seeded_deterministic 3 1 1 1 none none 1 one_ne_zero zeroStream otherStream⟩

/-! ## Claim C8 — the daily-challenge seed -/

/-- C8 (counterexample).  `dateToSeed` parses the date string at UTC midnight
but reads the civil fields in local time, so for a caller whose UTC offset is
-300 minutes the string "2024-01-15" yields the previous day's seed 20240114,
not `year*10000 + month*100 + day = 20240115`. -/
theorem C8_counterexample : dateToSeed 2024 1 15 (-300) ≠ 20240115 := by
  decide

/-- C8 (amended).  For callers whose UTC offset is non-negative (and below a
day) the seed matches the claimed `year*10000 + month*100 + day` derivation —
seeds are offset-invariant on `[0, 1440)` minutes and "2024-01-15" gives
20240115 — and the daily challenge is exactly the seeded generator on the
fixed 8×8 grid with the WATER palette (20 colors) and the shared color-count
heuristic, which yields `minC = 7`, `maxC = 11` there.  Callers at negative
offsets get the previous day's seed (see the counterexample), so "identical
for all callers" holds only within this offset range. -/
theorem C8_daily_seed (y : Int) (m d : Nat) (tz : Int) (h0 : 0 ≤ tz) (h1 : tz < 1440)
    (amb : Nat → Nat) :
    dateToSeed y m d tz = dateToSeed y m d 0 ∧
    dateToSeed 2024 1 15 0 = 20240115 ∧
    generateDailyChallenge y m d tz amb =
      (generateLevel 8 8 (calculateColorCounts 8 8 20).1 (calculateColorCounts 8 8 20).2
        (some 20) (some (dateToSeed y m d tz).toNat) none amb).map (fun r => r.1) ∧
    calculateColorCounts 8 8 20 = (7, 11) := by
  refine ⟨?_, by decide, rfl, by decide⟩
  simp only [dateToSeed]
  have hfe : ∀ a : Int, Int.fdiv a 1440 = a / 1440 := fun a =>
    Int.fdiv_eq_ediv a (by norm_num)
  have key : ∀ t : Int, 0 ≤ t → t < 1440 →
      (1440 * daysFromCivil y m d + t).fdiv 1440 = daysFromCivil y m d := by
    intro t ht0 ht1
    rw [hfe, add_comm, Int.add_mul_ediv_left t (daysFromCivil y m d) (by norm_num : (1440:Int) ≠ 0),
      Int.ediv_eq_zero_of_lt ht0 ht1, zero_add]
  rw [key tz h0 h1, key 0 le_rfl (by norm_num)]

/-- C8 (witness). -/
theorem C8_daily_seed_witness :
    ((0 : Int) ≤ 120 ∧ (120 : Int) < 1440) ∧
    dateToSeed 2024 1 15 120 = dateToSeed 2024 1 15 0 :=
  ⟨⟨by norm_num, by norm_num⟩,
   (C8_daily_seed 2024 1 15 120 (by norm_num) (by norm_num) zeroStream).1⟩

/-! ## Claim C9 — the targetColors pick -/

/-- C9 (counterexample).  With palette size 2, `minColors = 1`,
`maxColors = 3`, the code's pick `min(paletteLen, ⌊r·(maxC−minC+1)⌋+minC)`
sends two thirds of the draw space to the clamped top value 2 and only one
third to 1 — the distribution over the clamped interval `[1, 2]` is not
uniform (the sample is taken over `[minColors, maxColors]` first and clamped
afterwards). -/
theorem C9_counterexample :
    ((Finset.range 4294967296).filter (fun k => targetColorsOf 2 1 3 k = 2)).card ≠
      ((Finset.range 4294967296).filter (fun k => targetColorsOf 2 1 3 k = 1)).card := by
  have key : ∀ k, k < 4294967296 → (targetColorsOf 2 1 3 k = 1 ↔ k < 1431655766) := by
    intro k hk
    unfold targetColorsOf
    rw [Nat.mod_eq_of_lt hk]
    constructor
    · intro h
      by_contra hge
      have h32 : 4294967296 ≤ k * (3 + 1 - 1) := by omega
      have : 1 ≤ k * (3 + 1 - 1) / 4294967296 := (Nat.le_div_iff_mul_le (by norm_num)).2 (by omega)
      omega
    · intro h
      have : k * (3 + 1 - 1) / 4294967296 = 0 := Nat.div_eq_of_lt (by omega)
      rw [this]
      omega
  have h1 : (Finset.range 4294967296).filter (fun k => targetColorsOf 2 1 3 k = 1) =
      Finset.range 1431655766 := by
    ext k
    simp only [Finset.mem_filter, Finset.mem_range]
    constructor
    · rintro ⟨hk, hv⟩; exact (key k hk).1 hv
    · intro hk
      exact ⟨by omega, (key k (by omega)).2 hk⟩
  have hval : ∀ k, k < 4294967296 → targetColorsOf 2 1 3 k = 1 ∨ targetColorsOf 2 1 3 k = 2 := by
    intro k hk
    unfold targetColorsOf
    rw [Nat.mod_eq_of_lt hk]
    rcases Nat.eq_zero_or_pos (k * (3 + 1 - 1) / 4294967296) with h | h
    · left
      rw [h]
      omega
    · right
      omega
  have h2 : (Finset.range 4294967296).filter (fun k => targetColorsOf 2 1 3 k = 2) =
      Finset.range 4294967296 \ Finset.range 1431655766 := by
    ext k
    simp only [Finset.mem_filter, Finset.mem_range, Finset.mem_sdiff]
    constructor
    · rintro ⟨hk, hv⟩
      refine ⟨hk, fun hlt => ?_⟩
      rw [(key k hk).2 hlt] at hv
      omega
    · rintro ⟨hk, hge⟩
      refine ⟨hk, ?_⟩
      rcases hval k hk with h | h
      · exact absurd ((key k hk).1 h) hge
      · exact h
  rw [h1, h2, Finset.card_sdiff (Finset.range_subset.2 (by norm_num)), Finset.card_range,
    Finset.card_range]
  decide

/-- C9 (amended).  The pick is sampled once, before the attempt loop (see
`generateLevelCore`: `targetColorsOf` is applied to draw 0 and every attempt
reuses the value).  Its value always lies in the clamped interval
`[minColors, min(maxColors, paletteSize)]`, and when the palette does not
clamp (`maxColors ≤ paletteSize`) it is exactly the floor-uniform sample
`⌊r·(maxC−minC+1)⌋ + minC` over `[minColors, maxColors]`; when the palette
clamps, the top value absorbs the excess mass and uniformity fails. -/
theorem C9_pick_range (paletteLen minC maxC k : Nat) (h1 : minC ≤ maxC)
    (h2 : minC ≤ paletteLen) :
    minC ≤ targetColorsOf paletteLen minC maxC k ∧
    targetColorsOf paletteLen minC maxC k ≤ min paletteLen maxC ∧
    (maxC ≤ paletteLen →
      targetColorsOf paletteLen minC maxC k =
        (k % 4294967296) * (maxC + 1 - minC) / 4294967296 + minC) := by
  have hk : k % 4294967296 < 4294967296 := Nat.mod_lt _ (by norm_num)
  have hd : 0 < maxC + 1 - minC := by omega
  have hdiv : (k % 4294967296) * (maxC + 1 - minC) / 4294967296 < maxC + 1 - minC :=
    Nat.div_lt_of_lt_mul (mul_lt_mul_of_pos_right hk hd)
  unfold targetColorsOf
  refine ⟨by omega, by omega, fun hle => ?_⟩
  have : (k % 4294967296) * (maxC + 1 - minC) / 4294967296 + minC ≤ maxC := by omega
  omega

/-- C9 (witness for the amended theorem). -/
theorem C9_pick_range_witness :
    ((1 : Nat) ≤ 3 ∧ (1 : Nat) ≤ 20) ∧
    1 ≤ targetColorsOf 20 1 3 0 ∧ targetColorsOf 20 1 3 0 ≤ min 20 3 :=
  ⟨⟨by norm_num, by norm_num⟩,
   (C9_pick_range 20 1 3 0 (by norm_num) (by norm_num)).1,
   (C9_pick_range 20 1 3 0 (by norm_num) (by norm_num)).2.1⟩

/-! ## Claims C5 and C6 — the validator's guarantees -/

/-- The duplicate scan returns `none` exactly when the scanned list (plus the
already-seen prefix) is duplicate-free. -/
theorem firstDupAux_eq_none (l : List Nat) : ∀ seen : List Nat,
    firstDupAux seen l = none ↔ l.Nodup ∧ ∀ x ∈ l, x ∉ seen := by
  induction l with
  | nil => intro seen; simp [firstDupAux]
  | cons c cs ih =>
    intro seen
    simp only [firstDupAux]
    by_cases hc : c ∈ seen
    · rw [if_pos (List.elem_iff.2 hc)]
      constructor
      · intro h; exact absurd h (by simp)
      · rintro ⟨-, hall⟩
        exact absurd hc (hall c (List.mem_cons_self c cs))
    · rw [if_neg (fun h => hc (List.elem_iff.1 h)), ih (c :: seen)]
      constructor
      · rintro ⟨hnd, hall⟩
        refine ⟨List.nodup_cons.2
          ⟨fun hmem => hall c hmem (List.mem_cons_self c seen), hnd⟩, ?_⟩
        intro x hx hmem
        rcases List.mem_cons.1 hx with rfl | hxs
        · exact hc hmem
        · exact hall x hxs (List.mem_cons_of_mem c hmem)
      · rintro ⟨hnd, hall⟩
        obtain ⟨hcc, hnd2⟩ := List.nodup_cons.1 hnd
        refine ⟨hnd2, fun x hx hmem => ?_⟩
        rcases List.mem_cons.1 hmem with rfl | hxseen
        · exact hcc hx
        · exact hall x (List.mem_cons_of_mem c hx) hxseen

/-- `firstDup l = none` iff `l` has no duplicate. -/
theorem firstDup_eq_none (l : List Nat) : firstDup l = none ↔ l.Nodup := by
  rw [firstDup, firstDupAux_eq_none]
  simp

/-- Unfolding of the validator's result by its sequential checks. -/
theorem validate_cases (lvl : LevelData) :
    (lvl.solvedPaths.length == 0) = true ∧
      validateNumberlinkRules lvl = ⟨false, some "No solved paths found"⟩ ∨
    (lvl.solvedPaths.length == 0) = false ∧
    ((∃ e, checkColorRules lvl.solvedPaths (colorGroups (objEntries lvl.anchors)) = some e ∧
        validateNumberlinkRules lvl = ⟨false, some e⟩) ∨
      checkColorRules lvl.solvedPaths (colorGroups (objEntries lvl.anchors)) = none ∧
      ((∃ e, overlapError lvl.solvedPaths = some e ∧
          validateNumberlinkRules lvl = ⟨false, some e⟩) ∨
        overlapError lvl.solvedPaths = none ∧
        ((∃ e, coverageError (lvl.width * lvl.height) lvl.solvedPaths = some e ∧
            validateNumberlinkRules lvl = ⟨false, some e⟩) ∨
          coverageError (lvl.width * lvl.height) lvl.solvedPaths = none ∧
          ((∃ e, branchingError lvl.width lvl.height lvl.solvedPaths = some e ∧
              validateNumberlinkRules lvl = ⟨false, some e⟩) ∨
            branchingError lvl.width lvl.height lvl.solvedPaths = none ∧
            ((∃ e, uturnError lvl.solvedPaths = some e ∧
                validateNumberlinkRules lvl = ⟨false, some e⟩) ∨
              uturnError lvl.solvedPaths = none ∧
              validateNumberlinkRules lvl = ⟨true, none⟩))))) := by
  cases h0 : (lvl.solvedPaths.length == 0)
  · cases hc : checkColorRules lvl.solvedPaths (colorGroups (objEntries lvl.anchors)) with
    | some e =>
      right
      exact ⟨rfl, Or.inl ⟨e, rfl, by simp [validateNumberlinkRules, h0, hc]⟩⟩
    | none =>
      cases ho : overlapError lvl.solvedPaths with
      | some e =>
        right
        exact ⟨rfl, Or.inr ⟨rfl, Or.inl ⟨e, rfl, by simp [validateNumberlinkRules, h0, hc, ho]⟩⟩⟩
      | none =>
        cases hcov : coverageError (lvl.width * lvl.height) lvl.solvedPaths with
        | some e =>
          right
          exact ⟨rfl, Or.inr ⟨rfl, Or.inr ⟨rfl, Or.inl ⟨e, rfl,
            by simp [validateNumberlinkRules, h0, hc, ho, hcov]⟩⟩⟩⟩
        | none =>
          cases hb : branchingError lvl.width lvl.height lvl.solvedPaths with
          | some e =>
            right
            exact ⟨rfl, Or.inr ⟨rfl, Or.inr ⟨rfl, Or.inr ⟨rfl, Or.inl ⟨e, rfl,
              by simp [validateNumberlinkRules, h0, hc, ho, hcov, hb]⟩⟩⟩⟩⟩
          | none =>
            cases hu : uturnError lvl.solvedPaths with
            | some e =>
              right
              exact ⟨rfl, Or.inr ⟨rfl, Or.inr ⟨rfl, Or.inr ⟨rfl, Or.inr ⟨rfl, Or.inl ⟨e, rfl,
                by simp [validateNumberlinkRules, h0, hc, ho, hcov, hb, hu]⟩⟩⟩⟩⟩⟩
            | none =>
              right
              exact ⟨rfl, Or.inr ⟨rfl, Or.inr ⟨rfl, Or.inr ⟨rfl, Or.inr ⟨rfl, Or.inr ⟨rfl,
                by simp [validateNumberlinkRules, h0, hc, ho, hcov, hb, hu]⟩⟩⟩⟩⟩⟩
  · left
    exact ⟨rfl, by simp [validateNumberlinkRules, h0]⟩

/-- A valid verdict forces every sequential check to pass. -/
theorem validate_isValid_checks (lvl : LevelData)
    (h : (validateNumberlinkRules lvl).isValid = true) :
    (lvl.solvedPaths.length == 0) = false ∧
    checkColorRules lvl.solvedPaths (colorGroups (objEntries lvl.anchors)) = none ∧
    overlapError lvl.solvedPaths = none ∧
    coverageError (lvl.width * lvl.height) lvl.solvedPaths = none ∧
    branchingError lvl.width lvl.height lvl.solvedPaths = none ∧
    uturnError lvl.solvedPaths = none := by
  rcases validate_cases lvl with ⟨h0, heq⟩ | ⟨h0, hrest⟩
  · rw [heq] at h; exact absurd h (by simp)
  · rcases hrest with ⟨e, -, heq⟩ | ⟨hc, hrest⟩
    · rw [heq] at h; exact absurd h (by simp)
    rcases hrest with ⟨e, -, heq⟩ | ⟨ho, hrest⟩
    · rw [heq] at h; exact absurd h (by simp)
    rcases hrest with ⟨e, -, heq⟩ | ⟨hcov, hrest⟩
    · rw [heq] at h; exact absurd h (by simp)
    rcases hrest with ⟨e, -, heq⟩ | ⟨hb, hrest⟩
    · rw [heq] at h; exact absurd h (by simp)
    rcases hrest with ⟨e, -, heq⟩ | ⟨hu, -⟩
    · rw [heq] at h; exact absurd h (by simp)
    exact ⟨h0, hc, ho, hcov, hb, hu⟩

/-- A candidate whose path lies entirely outside the 3×1 grid (cells 3, 4, 5
form a chain under the index arithmetic of `getNeighbors`). -/
def c5Level : LevelData :=
  { width := 3, height := 1, anchors := [(3, 0), (5, 0)], difficulty := 1,
    solvedPaths := [⟨0, [3, 4, 5]⟩] }

/-- C5 (counterexample).  The validator only compares the *number* of
distinct path cells with `width*height`; it never checks that the cells lie
inside the grid.  This candidate passes `validateNumberlinkRules` even though
its paths do not cover grid cell 0 (the union of path cells is `{3,4,5}`, not
`{0,1,2}`), refuting "valid only if the union of all path cells equals the
full set of grid cells". -/
theorem C5_counterexample :
    (validateNumberlinkRules c5Level).isValid = true ∧
    ¬ (∃ p ∈ c5Level.solvedPaths, 0 ∈ p.path) := by
  constructor
  · decide
  · decide

/-- C5 (amended).  A valid verdict guarantees global disjointness (no cell
twice, within or across paths) and that the number of distinct path cells
equals `width*height` (set equality with the grid can fail — see the
counterexample); conversely a shared cell or a distinct-cell count other than
`width*height` forces an invalid verdict, and — when the anchor-structure
checks (which run first) pass — the reported error names the first overlap
cell or the covered/total cell counts. -/
theorem C5_validator_disjoint_count (lvl : LevelData) :
    ((validateNumberlinkRules lvl).isValid = true →
      ((lvl.solvedPaths.map (·.path)).flatten).Nodup ∧
      (((lvl.solvedPaths.map (·.path)).flatten).eraseDups).length =
        lvl.width * lvl.height) ∧
    (¬ (((lvl.solvedPaths.map (·.path)).flatten).Nodup ∧
        (((lvl.solvedPaths.map (·.path)).flatten).eraseDups).length =
          lvl.width * lvl.height) →
      (validateNumberlinkRules lvl).isValid = false) ∧
    ((lvl.solvedPaths.length == 0) = false →
     checkColorRules lvl.solvedPaths (colorGroups (objEntries lvl.anchors)) = none →
     ¬ (((lvl.solvedPaths.map (·.path)).flatten).Nodup ∧
        (((lvl.solvedPaths.map (·.path)).flatten).eraseDups).length =
          lvl.width * lvl.height) →
      (∃ c : Nat, (validateNumberlinkRules lvl).error =
        some ("Paths overlap at cell " ++ toString c)) ∨
      (validateNumberlinkRules lvl).error =
        some ("Grid not fully filled: " ++
          toString (((lvl.solvedPaths.map (·.path)).flatten).eraseDups).length ++ "/" ++
          toString (lvl.width * lvl.height) ++ " cells")) := by
  have hvalid : (validateNumberlinkRules lvl).isValid = true →
      ((lvl.solvedPaths.map (·.path)).flatten).Nodup ∧
      (((lvl.solvedPaths.map (·.path)).flatten).eraseDups).length =
        lvl.width * lvl.height := by
    intro h
    obtain ⟨-, -, ho, hcov, -, -⟩ := validate_isValid_checks lvl h
    constructor
    · rw [overlapError, Option.map_eq_none'] at ho
      exact (firstDup_eq_none _).1 ho
    · by_contra hne
      rw [coverageError] at hcov
      rw [if_pos hne] at hcov
      exact absurd hcov (by simp)
  refine ⟨hvalid, ?_, ?_⟩
  · intro hne
    cases hv : (validateNumberlinkRules lvl).isValid
    · rfl
    · exact absurd (hvalid hv) hne
  · intro h0 hc hne
    cases hf : firstDup ((lvl.solvedPaths.map (·.path)).flatten) with
    | some c =>
      have ho : overlapError lvl.solvedPaths =
          some ("Paths overlap at cell " ++ toString c) := by
        rw [overlapError, hf]; rfl
      left
      refine ⟨c, ?_⟩
      rcases validate_cases lvl with ⟨hz, -⟩ | ⟨-, hrest⟩
      · rw [h0] at hz; exact absurd hz (by simp)
      rcases hrest with ⟨e, he, -⟩ | ⟨-, hrest⟩
      · rw [hc] at he; exact absurd he (by simp)
      rcases hrest with ⟨e, he, heq⟩ | ⟨hoe, -⟩
      · rw [ho] at he
        rw [heq]
        simpa using he.symm
      · rw [ho] at hoe; exact absurd hoe (by simp)
    | none =>
      have hnd := (firstDup_eq_none _).1 hf
      have hcnt : (((lvl.solvedPaths.map (·.path)).flatten).eraseDups).length ≠
          lvl.width * lvl.height := fun h => hne ⟨hnd, h⟩
      have ho : overlapError lvl.solvedPaths = none := by
        rw [overlapError, hf]; rfl
      have hcov : coverageError (lvl.width * lvl.height) lvl.solvedPaths =
          some ("Grid not fully filled: " ++
            toString (((lvl.solvedPaths.map (·.path)).flatten).eraseDups).length ++ "/" ++
            toString (lvl.width * lvl.height) ++ " cells") := by
        rw [coverageError, if_pos hcnt]
      right
      rcases validate_cases lvl with ⟨hz, -⟩ | ⟨-, hrest⟩
      · rw [h0] at hz; exact absurd hz (by simp)
      rcases hrest with ⟨e, he, -⟩ | ⟨-, hrest⟩
      · rw [hc] at he; exact absurd he (by simp)
      rcases hrest with ⟨e, he, -⟩ | ⟨-, hrest⟩
      · rw [ho] at he; exact absurd he (by simp)
      rcases hrest with ⟨e, he, heq⟩ | ⟨hcove, -⟩
      · rw [hcov] at he
        rw [heq]
        simpa using he.symm
      · rw [hcov] at hcove; exact absurd hcove (by simp)

/-- The 3×1 level the primary generator actually produces (used as a valid
concrete instance in several witnesses). -/
def l0Level : LevelData :=
  { width := 3, height := 1, anchors := [(0, 0), (2, 0)], difficulty := 1,
    solvedPaths := [⟨0, [0, 1, 2]⟩] }

/-- C5 (witness for the amended theorem). -/
theorem C5_validator_disjoint_count_witness :
    (validateNumberlinkRules l0Level).isValid = true ∧
    (((l0Level.solvedPaths.map (·.path)).flatten).Nodup ∧
      (((l0Level.solvedPaths.map (·.path)).flatten).eraseDups).length =
        l0Level.width * l0Level.height) :=
  ⟨by decide, (C5_validator_disjoint_count l0Level).1 (by decide)⟩

/-- The per-path non-branching scan passes exactly when every endpoint cell
has 1 in-path orthogonal neighbour and every interior cell has 2. -/
theorem branchingErrorOfPath_eq_none (w h : Nat) (p : SolvedPath) :
    branchingErrorOfPath w h p = none ↔
      ∀ i < p.path.length,
        ((getNeighbors (p.path.getD i 0) w h).filter (fun n => p.path.contains n)).length =
          if i = 0 ∨ i = p.path.length - 1 then 1 else 2 := by
  unfold branchingErrorOfPath
  rw [List.findSome?_eq_none_iff]
  constructor
  · intro hall i hi
    have hf := hall i (List.mem_range.2 hi)
    by_cases hcase : i = 0 ∨ i = p.path.length - 1
    · rw [if_pos hcase]
      have hb : (i == 0 || i == p.path.length - 1) = true := by
        rcases hcase with rfl | hcase
        · simp
        · simp [hcase]
      rw [hb] at hf
      simp only [if_true] at hf
      by_contra hne
      rw [if_pos hne] at hf
      exact absurd hf (by simp)
    · rw [if_neg hcase]
      push_neg at hcase
      have hb : (i == 0 || i == p.path.length - 1) = false := by
        simp [hcase.1, hcase.2]
      rw [hb] at hf
      simp only [Bool.false_eq_true, if_false] at hf
      by_contra hne
      rw [if_pos hne] at hf
      exact absurd hf (by simp)
  · intro hprop i hmem
    have hi := List.mem_range.1 hmem
    have hval := hprop i hi
    by_cases hcase : i = 0 ∨ i = p.path.length - 1
    · have hb : (i == 0 || i == p.path.length - 1) = true := by
        rcases hcase with rfl | hcase
        · simp
        · simp [hcase]
      rw [if_pos hcase] at hval
      simp only [hb, if_true]
      rw [if_neg (by omega)]
    · push_neg at hcase
      have hb : (i == 0 || i == p.path.length - 1) = false := by
        simp [hcase.1, hcase.2]
      rw [if_neg (by tauto)] at hval
      simp only [hb, Bool.false_eq_true, if_false]
      rw [if_neg (by omega)]

/-- A level with both an overlap (cell 2 is in both paths) and a branching
violation (cell 4 of the second path has 3 in-path neighbours). -/
def c6Level : LevelData :=
  { width := 3, height := 2, anchors := [(0, 0), (2, 0), (3, 1), (1, 1)], difficulty := 2,
    solvedPaths := [⟨0, [0, 1, 2]⟩, ⟨1, [3, 4, 5, 2, 1]⟩] }

/-- "A branching error for some color": the only strings the non-branching
scan can produce. -/
def IsBranchingError (s : String) : Prop :=
  ∃ c : Nat,
    s = "Path for color " ++ toString c ++ " has branching at endpoint" ∨
    ∃ cell : Nat,
      s = "Path for color " ++ toString c ++ " has branching at cell " ++ toString cell

/-- Character 4 of every branching error is the blank after "Path". -/
theorem branch_prefix_char (t : String) :
    ("Path for color " ++ t).data[4]? = some ' ' := by
  rw [String.data_append, List.getElem?_append_left (by decide)]
  decide

/-- The overlap error string is not a branching error. -/
theorem overlap_not_branching : ¬ IsBranchingError "Paths overlap at cell 2" := by
  rintro ⟨c, h | ⟨cell, h⟩⟩
  · rw [String.append_assoc] at h
    have h4 : ("Paths overlap at cell 2").data[4]? = some ' ' := by
      rw [h]; exact branch_prefix_char _
    exact absurd h4 (by decide)
  · rw [String.append_assoc, String.append_assoc] at h
    have h4 : ("Paths overlap at cell 2").data[4]? = some ' ' := by
      rw [h]; exact branch_prefix_char _
    exact absurd h4 (by decide)

/-- C6 (counterexample).  `c6Level` has a branching violation (interior cell
4 of the color-1 path has 3 in-path neighbours) and the validator does return
invalid — but its error is the overlap error "Paths overlap at cell 2" (the
overlap rule runs first), not a branching error for that color; so "any
violation makes the validator return invalid *with a branching error for that
color*" fails as stated. -/
theorem C6_counterexample :
    (∃ p ∈ c6Level.solvedPaths, ∃ i < p.path.length,
      ((getNeighbors (p.path.getD i 0) c6Level.width c6Level.height).filter
          (fun n => p.path.contains n)).length ≠
        if i = 0 ∨ i = p.path.length - 1 then 1 else 2) ∧
    (validateNumberlinkRules c6Level).error = some "Paths overlap at cell 2" ∧
    ∀ s, (validateNumberlinkRules c6Level).error = some s → ¬ IsBranchingError s := by
  refine ⟨?_, by decide, ?_⟩
  · refine ⟨⟨1, [3, 4, 5, 2, 1]⟩, by decide, 1, by decide, ?_⟩
    decide
  · intro s hs
    have : s = "Paths overlap at cell 2" := by
      have h2 : (validateNumberlinkRules c6Level).error = some "Paths overlap at cell 2" := by
        decide
      rw [h2] at hs
      exact (Option.some_inj.1 hs).symm
    rw [this]
    exact overlap_not_branching

/-- C6 (amended).  A valid verdict certifies the simple-chain property (every
endpoint of every path has exactly 1 in-path orthogonal neighbour, every
interior cell exactly 2); any violation forces an invalid verdict; and when
the checks that run earlier (anchor structure, overlap, coverage) all pass,
the reported error is exactly the non-branching scan's branching error for
the first offending color. -/
theorem C6_simple_chain (lvl : LevelData) :
    ((validateNumberlinkRules lvl).isValid = true →
      ∀ p ∈ lvl.solvedPaths, ∀ i < p.path.length,
        ((getNeighbors (p.path.getD i 0) lvl.width lvl.height).filter
            (fun n => p.path.contains n)).length =
          if i = 0 ∨ i = p.path.length - 1 then 1 else 2) ∧
    ((∃ p ∈ lvl.solvedPaths, ∃ i < p.path.length,
        ((getNeighbors (p.path.getD i 0) lvl.width lvl.height).filter
            (fun n => p.path.contains n)).length ≠
          if i = 0 ∨ i = p.path.length - 1 then 1 else 2) →
      (validateNumberlinkRules lvl).isValid = false) ∧
    ((lvl.solvedPaths.length == 0) = false →
     checkColorRules lvl.solvedPaths (colorGroups (objEntries lvl.anchors)) = none →
     overlapError lvl.solvedPaths = none →
     coverageError (lvl.width * lvl.height) lvl.solvedPaths = none →
     (∃ p ∈ lvl.solvedPaths, ∃ i < p.path.length,
        ((getNeighbors (p.path.getD i 0) lvl.width lvl.height).filter
            (fun n => p.path.contains n)).length ≠
          if i = 0 ∨ i = p.path.length - 1 then 1 else 2) →
      (validateNumberlinkRules lvl).error =
        branchingError lvl.width lvl.height lvl.solvedPaths ∧
      (branchingError lvl.width lvl.height lvl.solvedPaths).isSome = true) := by
  have hvalid : (validateNumberlinkRules lvl).isValid = true →
      ∀ p ∈ lvl.solvedPaths, ∀ i < p.path.length,
        ((getNeighbors (p.path.getD i 0) lvl.width lvl.height).filter
            (fun n => p.path.contains n)).length =
          if i = 0 ∨ i = p.path.length - 1 then 1 else 2 := by
    intro h p hp
    obtain ⟨-, -, -, -, hb, -⟩ := validate_isValid_checks lvl h
    rw [branchingError, List.findSome?_eq_none_iff] at hb
    exact (branchingErrorOfPath_eq_none lvl.width lvl.height p).1 (hb p hp)
  have hviol : (∃ p ∈ lvl.solvedPaths, ∃ i < p.path.length,
        ((getNeighbors (p.path.getD i 0) lvl.width lvl.height).filter
            (fun n => p.path.contains n)).length ≠
          if i = 0 ∨ i = p.path.length - 1 then 1 else 2) →
      branchingError lvl.width lvl.height lvl.solvedPaths ≠ none := by
    rintro ⟨p, hp, i, hi, hne⟩ hb
    rw [branchingError, List.findSome?_eq_none_iff] at hb
    exact hne (((branchingErrorOfPath_eq_none lvl.width lvl.height p).1 (hb p hp)) i hi)
  refine ⟨hvalid, ?_, ?_⟩
  · intro hex
    cases hv : (validateNumberlinkRules lvl).isValid
    · rfl
    · obtain ⟨p, hp, i, hi, hne⟩ := hex
      exact absurd (hvalid hv p hp i hi) hne
  · intro h0 hc ho hcov hex
    have hbne := hviol hex
    cases hbval : branchingError lvl.width lvl.height lvl.solvedPaths with
    | none => exact absurd hbval hbne
    | some e =>
      rcases validate_cases lvl with ⟨hz, -⟩ | ⟨-, hrest⟩
      · rw [h0] at hz; exact absurd hz (by simp)
      rcases hrest with ⟨f, hf, -⟩ | ⟨-, hrest⟩
      · rw [hc] at hf; exact absurd hf (by simp)
      rcases hrest with ⟨f, hf, -⟩ | ⟨-, hrest⟩
      · rw [ho] at hf; exact absurd hf (by simp)
      rcases hrest with ⟨f, hf, -⟩ | ⟨-, hrest⟩
      · rw [hcov] at hf; exact absurd hf (by simp)
      rcases hrest with ⟨f, hf, heq⟩ | ⟨hbe, -⟩
      · exact ⟨(congrArg ValidationResult.error heq).trans (hf.symm.trans hbval), rfl⟩
      · rw [hbval] at hbe; exact absurd hbe (by simp)

/-- C6 (witness for the amended theorem). -/
theorem C6_simple_chain_witness :
    (validateNumberlinkRules l0Level).isValid = true ∧
    ∀ p ∈ l0Level.solvedPaths, ∀ i < p.path.length,
      ((getNeighbors (p.path.getD i 0) l0Level.width l0Level.height).filter
          (fun n => p.path.contains n)).length =
        if i = 0 ∨ i = p.path.length - 1 then 1 else 2 :=
  ⟨by decide, (C6_simple_chain l0Level).1 (by decide)⟩

/-! ## Claims C1, C3, C10 — the uniqueness-seeking retry loop -/

/-- The candidate the retry loop generates at attempt `i` (`none` when that
attempt's `generateLevel` call throws; the throw is caught by the loop's
`try/catch`). -/
def gusCandidate (width height minC maxC : Nat) (palette : Option Nat)
    (seedGen : Nat → Nat) (ambF : Nat → Nat → Nat) (i : Nat) : Option LevelData :=
  (generateLevel width height minC maxC palette (some (seedGen i)) none (ambF i)).map
    (fun r => r.1)

/-- The loop body's accept condition for one attempt: the candidate exists
(no throw), validates, and carries a truthy, unseen hash. -/
def gusAccepts (existing : List String) (cand : Option LevelData) : Bool :=
  match cand with
  | none => false
  | some lvl =>
    (validateNumberlinkRules lvl).isValid && generateLevelHash lvl != "" &&
      !existing.contains (generateLevelHash lvl)

/-- The modelled fingerprint is never the empty string (it starts with the
decimal width), so the JS truthiness guard `hash && …` never rejects it. -/
theorem generateLevelHash_ne_empty (lvl : LevelData) : generateLevelHash lvl ≠ "" := by
  intro h
  have hlen := congrArg String.length h
  rw [generateLevelHash] at hlen
  simp [String.length_append] at hlen
  exact absurd hlen.1.1.1.2 (by decide)

/-- If no attempt in the window `[attempt, attempt+remaining)` passes the
accept condition (candidate exists, validates, fresh truthy hash), the retry
loop falls through and returns the all-null exhaustion record. -/
theorem gusLoop_exhaust (width height minC maxC : Nat) (palette : Option Nat)
    (existing : List String) (seedGen : Nat → Nat) (ambF : Nat → Nat → Nat)
    (maxAttempts : Nat) :
    ∀ remaining attempt,
      (∀ i, attempt ≤ i → i < attempt + remaining →
        gusAccepts existing (gusCandidate width height minC maxC palette seedGen ambF i) =
          false) →
      gusLoop width height minC maxC palette existing seedGen ambF maxAttempts
          attempt remaining = ⟨none, none, false, maxAttempts⟩ := by
  intro remaining
  induction remaining with
  | zero => intro attempt _; rfl
  | succ r ih =>
    intro attempt h
    simp only [gusLoop]
    split
    · exact ih (attempt + 1) (fun i h1 h2 => h i (by omega) (by omega))
    · rename_i result hg
      have hi := h attempt (le_refl _) (by omega)
      simp only [gusCandidate] at hi
      rw [hg, Option.map_some'] at hi
      simp only [gusAccepts] at hi
      cases hv : (validateNumberlinkRules result.1).isValid with
      | false =>
        simp only [hv, Bool.not_false, if_true]
        exact ih (attempt + 1) (fun i h1 h2 => h i (by omega) (by omega))
      | true =>
        simp only [hv, Bool.not_true, Bool.false_eq_true, if_false]
        rw [hv, Bool.true_and] at hi
        rw [hi]
        simp only [Bool.false_eq_true, if_false]
        exact ih (attempt + 1) (fun i h1 h2 => h i (by omega) (by omega))

/-- If the attempts before `k` are all rejected and attempt `k` passes the
accept condition, the loop accepts exactly at `k`. -/
theorem gusLoop_accept (width height minC maxC : Nat) (palette : Option Nat)
    (existing : List String) (seedGen : Nat → Nat) (ambF : Nat → Nat → Nat)
    (maxAttempts k : Nat)
    (hacc : gusAccepts existing
      (gusCandidate width height minC maxC palette seedGen ambF k) = true) :
    ∀ remaining attempt, attempt ≤ k → k < attempt + remaining →
      (∀ i, attempt ≤ i → i < k →
        gusAccepts existing (gusCandidate width height minC maxC palette seedGen ambF i) =
          false) →
      gusLoop width height minC maxC palette existing seedGen ambF maxAttempts
          attempt remaining =
        ⟨gusCandidate width height minC maxC palette seedGen ambF k,
         (gusCandidate width height minC maxC palette seedGen ambF k).map generateLevelHash,
         true, k + 1⟩ := by
  intro remaining
  induction remaining with
  | zero => intro attempt h1 h2 _; omega
  | succ r ih =>
    intro attempt h1 h2 h
    simp only [gusLoop]
    rcases Nat.eq_or_lt_of_le h1 with rfl | hlt
    · split
      · rename_i hg
        simp only [gusCandidate] at hacc
        rw [hg] at hacc
        simp [gusAccepts] at hacc
      · rename_i result hg
        simp only [gusCandidate] at hacc
        rw [hg, Option.map_some'] at hacc
        simp only [gusAccepts] at hacc
        simp only [Bool.and_eq_true] at hacc
        obtain ⟨⟨ha, hb⟩, hc⟩ := hacc
        simp only [ha, Bool.not_true, Bool.false_eq_true, if_false]
        have hcond : (generateLevelHash result.1 != "" &&
            !existing.contains (generateLevelHash result.1)) = true := by
          rw [hb, hc]
          rfl
        rw [hcond]
        simp [gusCandidate, hg]
    · split
      · exact ih (attempt + 1) hlt (by omega) (fun i ha hb => h i (by omega) hb)
      · rename_i result hg
        have hne := h attempt (le_refl _) hlt
        simp only [gusCandidate] at hne
        rw [hg, Option.map_some'] at hne
        simp only [gusAccepts] at hne
        cases hv : (validateNumberlinkRules result.1).isValid with
        | false =>
          simp only [hv, Bool.not_false, if_true]
          exact ih (attempt + 1) hlt (by omega) (fun i ha hb => h i (by omega) hb)
        | true =>
          simp only [hv, Bool.not_true, Bool.false_eq_true, if_false]
          rw [hv, Bool.true_and] at hne
          rw [hne]
          simp only [Bool.false_eq_true, if_false]
          exact ih (attempt + 1) hlt (by omega) (fun i ha hb => h i (by omega) hb)

/-- The fingerprint of the only anchor layout a 3×1 primary success can have. -/
def c1Existing : List String := ["3x1:0-0,2-0"]

/-- C1 (counterexample).  When `generateUniqueLevelSync` exhausts its attempt
bound, it does *not* return the last generated candidate: with one attempt on
the 3×1 grid, a constant seed generator and a seen-set already containing the
(unique) 3×1 fingerprint, the attempt produces a perfectly valid candidate —
second conjunct — yet the function returns `level = null, hash = null,
isUnique = false` (the caller-facing `startLevel` loop, not this function, is
what retains the last candidate). -/
theorem C1_counterexample :
    generateUniqueLevelSync 3 1 1 1 none c1Existing 1 (fun _ => 1) (fun _ _ => 0) =
      ⟨none, none, false, 1⟩ ∧
    (generateLevel 3 1 1 1 none (some 1) none zeroStream).map
      (fun r => (validateNumberlinkRules r.1).isValid) = some true := by
  constructor
  · decide
  · decide

/-- C1 (amended).  On exhausting the bound without an attempt that passes the
accept condition (candidate generated without a throw, valid, fresh truthy
hash), `generateUniqueLevelSync` returns `level = null`, `hash = null`,
`isUnique = false` (the caller-visible warning indication) and
`attempts = maxAttempts`, and never fails hard — the source's `try/catch`
swallows any throw per attempt, which `gusAccepts` reflects by rejecting a
`none` candidate.  The last candidate itself is surfaced by the `startLevel`
loop, not by this function. -/
theorem C1_exhaustion_returns_null (width height minC maxC maxAttempts : Nat)
    (palette : Option Nat) (existing : List String) (seedGen : Nat → Nat)
    (ambF : Nat → Nat → Nat)
    (hfail : ∀ i < maxAttempts,
      gusAccepts existing (gusCandidate width height minC maxC palette seedGen ambF i) =
        false) :
    generateUniqueLevelSync width height minC maxC palette existing maxAttempts
        seedGen ambF = ⟨none, none, false, maxAttempts⟩ :=
  gusLoop_exhaust width height minC maxC palette existing seedGen ambF maxAttempts
    maxAttempts 0 (fun i _ h2 => hfail i (by omega))

/-- C1 (witness for the amended theorem). -/
theorem C1_exhaustion_returns_null_witness :
    (∀ i < 1,
      gusAccepts c1Existing (gusCandidate 3 1 1 1 none (fun _ => 1) (fun _ _ => 0) i) =
        false) ∧
    generateUniqueLevelSync 3 1 1 1 none c1Existing 1 (fun _ => 1) (fun _ _ => 0) =
      ⟨none, none, false, 1⟩ :=
  ⟨by decide,
   C1_exhaustion_returns_null 3 1 1 1 1 none c1Existing (fun _ => 1) (fun _ _ => 0)
     (by decide)⟩

/-- C3.  With a seen-set containing fingerprint `F`, if the generator yields
valid puzzles fingerprinted `F` on the first `k < maxAttempts` attempts and a
valid puzzle with an unseen fingerprint on attempt `k`, the loop returns that
puzzle with `isUnique = true` and `attempts = k + 1` — the `F`-fingerprinted
candidates are all rejected by the seen-set test and never accepted. -/
theorem C3_uniqueness_loop (width height minC maxC k maxAttempts : Nat)
    (palette : Option Nat) (existing : List String) (seedGen : Nat → Nat)
    (ambF : Nat → Nat → Nat) (F : String)
    (hk : k < maxAttempts) (hF : F ∈ existing)
    (hFirst : ∀ i < k,
      (gusCandidate width height minC maxC palette seedGen ambF i).map
          (fun lvl => ((validateNumberlinkRules lvl).isValid, generateLevelHash lvl)) =
        some (true, F))
    (hKth : (gusCandidate width height minC maxC palette seedGen ambF k).map
        (fun lvl => ((validateNumberlinkRules lvl).isValid,
          existing.contains (generateLevelHash lvl))) = some (true, false)) :
    generateUniqueLevelSync width height minC maxC palette existing maxAttempts
        seedGen ambF =
      ⟨gusCandidate width height minC maxC palette seedGen ambF k,
       (gusCandidate width height minC maxC palette seedGen ambF k).map generateLevelHash,
       true, k + 1⟩ := by
  have hacc : gusAccepts existing
      (gusCandidate width height minC maxC palette seedGen ambF k) = true := by
    cases hc : gusCandidate width height minC maxC palette seedGen ambF k with
    | none =>
      rw [hc] at hKth
      exact absurd hKth (by simp)
    | some lvl =>
      rw [hc, Option.map_some'] at hKth
      have h2 := Option.some_inj.1 hKth
      have hv : (validateNumberlinkRules lvl).isValid = true := congrArg Prod.fst h2
      have hcont : existing.contains (generateLevelHash lvl) = false := congrArg Prod.snd h2
      have hne : (generateLevelHash lvl != "") = true := by
        simpa using generateLevelHash_ne_empty lvl
      simp only [gusAccepts]
      rw [hv, hcont, hne]
      rfl
  have hfail : ∀ i, 0 ≤ i → i < k →
      gusAccepts existing (gusCandidate width height minC maxC palette seedGen ambF i) =
        false := by
    intro i _ hik
    have hi := hFirst i hik
    cases hc : gusCandidate width height minC maxC palette seedGen ambF i with
    | none => simp [gusAccepts]
    | some lvl =>
      rw [hc, Option.map_some'] at hi
      have h2 := Option.some_inj.1 hi
      have hFeq : generateLevelHash lvl = F := congrArg Prod.snd h2
      have hcont : existing.contains (generateLevelHash lvl) = true := by
        rw [hFeq]
        exact List.elem_iff.2 hF
      simp only [gusAccepts]
      rw [hcont]
      simp
  exact gusLoop_accept width height minC maxC palette existing seedGen ambF maxAttempts k
    hacc maxAttempts 0 (Nat.zero_le k) (by omega) hfail

/-- The ambient family realizing the stubbed generator of C3's scenario on
the 2×3 grid: attempt 0 reproduces the seen fingerprint, attempt 1 a fresh
one (`seedGenerator` constantly 0 routes every attempt to these streams). -/
def streamFirst : Nat → Nat := fun n => if 1 ≤ n && n ≤ 6 then 2200000000 else 0

def streamSecond : Nat → Nat := fun n => if 1 ≤ n && n ≤ 6 then 1500000000 else 0

def c3AmbFam : Nat → Nat → Nat := fun i => if i == 0 then streamFirst else streamSecond

def c3Existing : List String := ["2x3:0-1,2-0,3-1,5-0"]

/-- C3 (witness): the `k = 1` scenario realized concretely. -/
theorem C3_uniqueness_loop_witness :
    (1 < 2 ∧ "2x3:0-1,2-0,3-1,5-0" ∈ c3Existing) ∧
    generateUniqueLevelSync 2 3 2 2 none c3Existing 2 (fun _ => 0) c3AmbFam =
      ⟨gusCandidate 2 3 2 2 none (fun _ => 0) c3AmbFam 1,
       (gusCandidate 2 3 2 2 none (fun _ => 0) c3AmbFam 1).map generateLevelHash,
       true, 2⟩ :=
  ⟨⟨by omega, by decide⟩,
   C3_uniqueness_loop 2 3 2 2 1 2 none c3Existing (fun _ => 0) c3AmbFam
     "2x3:0-1,2-0,3-1,5-0" (by omega) (by decide) (by decide) (by decide)⟩

/-- C10.  The result dichotomy of `generateUniqueLevelSync`: a non-null level
is returned only if it validates and its hash is fresh, and then
`isUnique = true`, `hash` is that level's hash and `attempts ≤ maxAttempts`;
otherwise every field is the null/false exhaustion value with
`attempts = maxAttempts`.  The source never mutates `existingHashes` (it only
calls `.has`), which the embedding reflects by taking the set as a pure
value. -/
theorem C10_result_dichotomy (width height minC maxC maxAttempts : Nat)
    (palette : Option Nat) (existing : List String) (seedGen : Nat → Nat)
    (ambF : Nat → Nat → Nat) :
    (∀ lvl, (generateUniqueLevelSync width height minC maxC palette existing maxAttempts
        seedGen ambF).level = some lvl →
      (validateNumberlinkRules lvl).isValid = true ∧
      generateLevelHash lvl ∉ existing ∧
      (generateUniqueLevelSync width height minC maxC palette existing maxAttempts
        seedGen ambF).isUnique = true ∧
      (generateUniqueLevelSync width height minC maxC palette existing maxAttempts
        seedGen ambF).hash = some (generateLevelHash lvl) ∧
      (generateUniqueLevelSync width height minC maxC palette existing maxAttempts
        seedGen ambF).attempts ≤ maxAttempts) ∧
    ((generateUniqueLevelSync width height minC maxC palette existing maxAttempts
        seedGen ambF).level = none →
      (generateUniqueLevelSync width height minC maxC palette existing maxAttempts
        seedGen ambF).hash = none ∧
      (generateUniqueLevelSync width height minC maxC palette existing maxAttempts
        seedGen ambF).isUnique = false ∧
      (generateUniqueLevelSync width height minC maxC palette existing maxAttempts
        seedGen ambF).attempts = maxAttempts) := by
  have main : ∀ remaining attempt, attempt + remaining = maxAttempts →
      (∀ lvl, (gusLoop width height minC maxC palette existing seedGen ambF maxAttempts
          attempt remaining).level = some lvl →
        (validateNumberlinkRules lvl).isValid = true ∧
        generateLevelHash lvl ∉ existing ∧
        (gusLoop width height minC maxC palette existing seedGen ambF maxAttempts
          attempt remaining).isUnique = true ∧
        (gusLoop width height minC maxC palette existing seedGen ambF maxAttempts
          attempt remaining).hash = some (generateLevelHash lvl) ∧
        (gusLoop width height minC maxC palette existing seedGen ambF maxAttempts
          attempt remaining).attempts ≤ maxAttempts) ∧
      ((gusLoop width height minC maxC palette existing seedGen ambF maxAttempts
          attempt remaining).level = none →
        (gusLoop width height minC maxC palette existing seedGen ambF maxAttempts
          attempt remaining).hash = none ∧
        (gusLoop width height minC maxC palette existing seedGen ambF maxAttempts
          attempt remaining).isUnique = false ∧
        (gusLoop width height minC maxC palette existing seedGen ambF maxAttempts
          attempt remaining).attempts = maxAttempts) := by
    intro remaining
    induction remaining with
    | zero =>
      intro attempt _
      exact ⟨fun lvl h => absurd h (by simp [gusLoop]), fun _ => ⟨rfl, rfl, rfl⟩⟩
    | succ r ih =>
      intro attempt hsum
      simp only [gusLoop]
      split
      · exact ih (attempt + 1) (by omega)
      · rename_i result hg
        cases hv : (validateNumberlinkRules result.1).isValid with
        | false =>
          simp only [hv, Bool.not_false, if_true]
          exact ih (attempt + 1) (by omega)
        | true =>
          simp only [hv, Bool.not_true, Bool.false_eq_true, if_false]
          cases hcond : (generateLevelHash result.1 != "" &&
              !existing.contains (generateLevelHash result.1)) with
          | false =>
            simp only [Bool.false_eq_true, if_false]
            exact ih (attempt + 1) (by omega)
          | true =>
            simp only [if_true]
            constructor
            · intro lvl hlvl
              have hlvleq : result.1 = lvl := Option.some_inj.1 hlvl
              have hnm : generateLevelHash lvl ∉ existing := by
                rw [← hlvleq]
                intro hmem
                have hcont : existing.contains (generateLevelHash result.1) = true :=
                  List.elem_iff.2 hmem
                rw [hcont] at hcond
                simp at hcond
              exact ⟨hlvleq ▸ hv, hnm, trivial, by rw [hlvleq], by omega⟩
            · intro hnone
              exact absurd hnone (by simp)
  exact main maxAttempts 0 (by omega)

/-- The reversed 3×1 level, produced by the modelled seed 1. -/
def l0RevLevel : LevelData :=
  { width := 3, height := 1, anchors := [(2, 0), (0, 0)], difficulty := 1,
    solvedPaths := [⟨0, [2, 1, 0]⟩] }

/-- C10 (witness): a concrete accepted run on the 3×1 grid. -/
theorem C10_result_dichotomy_witness :
    (generateUniqueLevelSync 3 1 1 1 none [] 1 (fun _ => 1) (fun _ _ => 0)).level =
      some l0RevLevel ∧
    ((validateNumberlinkRules l0RevLevel).isValid = true ∧
      generateLevelHash l0RevLevel ∉ ([] : List String) ∧
      (generateUniqueLevelSync 3 1 1 1 none [] 1 (fun _ => 1) (fun _ _ => 0)).isUnique = true ∧
      (generateUniqueLevelSync 3 1 1 1 none [] 1 (fun _ => 1) (fun _ _ => 0)).hash =
        some (generateLevelHash l0RevLevel) ∧
      (generateUniqueLevelSync 3 1 1 1 none [] 1 (fun _ => 1) (fun _ _ => 0)).attempts ≤ 1) :=
  ⟨by decide,
   (C10_result_dichotomy 3 1 1 1 1 none [] (fun _ => 1) (fun _ _ => 0)).1 l0RevLevel
     (by decide)⟩

/-! ## Claim C4 — properties of every primary-generator success -/

/-- `⌊random()*n⌋` is a valid index when `n > 0`. -/
theorem randIndex_lt (r : Rng) (n : Nat) (hn : 0 < n) : (randIndex r n).1 < n := by
  unfold randIndex Rng.next
  exact Nat.div_lt_of_lt_mul (mul_lt_mul_of_pos_right (Nat.mod_lt _ (by norm_num)) hn)

/-- A color id (a natural) is never the empty marker `-1`. -/
theorem natCast_ne_negOne (c : Nat) : (c : Int) ≠ -1 := by
  intro h
  have := Int.natCast_nonneg c
  omega

/-- In-bounds `getD` is membership. -/
theorem getD_mem_of_lt (l : List Nat) (i d : Nat) (h : i < l.length) : l.getD i d ∈ l := by
  rw [List.getD_eq_getElem l d h]
  exact List.getElem_mem h

/-- Orthogonal neighbours of an in-grid cell are in-grid. -/
theorem getNeighbors_lt (idx w h : Nat) (hidx : idx < w * h) :
    ∀ n ∈ getNeighbors idx w h, n < w * h := by
  intro n hn
  have hw : 0 < w := by
    rcases Nat.eq_zero_or_pos w with rfl | hw
    · simp at hidx
    · exact hw
  obtain ⟨q, m, hq, hm, hidxeq⟩ : ∃ q m, idx / w = q ∧ idx % w = m ∧ idx = w * q + m :=
    ⟨idx / w, idx % w, rfl, rfl, (Nat.div_add_mod idx w).symm⟩
  have hmw : m < w := hm ▸ Nat.mod_lt _ hw
  simp only [getNeighbors, hq, hm, List.mem_append] at hn
  have hqh : q < h := by
    by_contra hge
    push_neg at hge
    have := Nat.mul_le_mul (le_refl w) hge
    omega
  rcases hn with ((hn | hn) | hn) | hn
  · split at hn
    · simp only [List.mem_singleton] at hn
      omega
    · simp at hn
  · split at hn
    · simp only [List.mem_singleton] at hn
      subst hn
      have h2 : q + 2 ≤ h := by omega
      have : w * (q + 2) ≤ w * h := Nat.mul_le_mul (le_refl w) h2
      have hlt : idx + w < w * (q + 2) := by
        rw [hidxeq]; ring_nf; omega
      omega
    · simp at hn
  · split at hn
    · simp only [List.mem_singleton] at hn
      omega
    · simp at hn
  · split at hn
    · rename_i hcond
      simp only [List.mem_singleton] at hn
      subst hn
      have h1 : m + 1 < w := by omega
      have : w * (q + 1) ≤ w * h := Nat.mul_le_mul (le_refl w) (by omega)
      have hlt : idx + 1 < w * (q + 1) := by
        rw [hidxeq]; ring_nf; omega
      omega
    · simp at hn

/-- Marking a cell non-empty removes exactly it from the empty-cell list. -/
theorem filter_range_update (size a : Nat) (grid : Nat → Int) (c : Int) (hc : c ≠ -1) :
    (List.range size).filter (fun i => updGrid grid a c i == -1) =
      ((List.range size).filter (fun i => grid i == -1)).erase a := by
  rw [List.erase_filter, List.Nodup.erase_eq_filter (List.nodup_range size) a,
    List.filter_filter]
  apply List.filter_congr
  intro x _
  by_cases hxa : x = a
  · subst hxa
    simp [updGrid, hc]
  · simp [updGrid, hxa]

/-- A passing move filter implies the target cell is empty. -/
theorem isValidMove_empty (w h size colorId curr : Nat) (grid : Nat → Int) (next : Nat)
    (hv : isValidMove w h size colorId curr grid next = true) : grid next = -1 := by
  unfold isValidMove at hv
  by_cases hg : (grid next != -1) = true
  · rw [if_pos hg] at hv
    exact absurd hv (by simp)
  · simpa using hg

/-- Invariants of the path-growing loop: the grown path extends the input
path in-grid, the empty-cell list stays the list of empty in-grid cells, the
filled counter complements it, and every newly filled cell lies on the grown
path. -/
theorem growPath_spec (w h size colorId : Nat) (hsz : size = w * h) :
    ∀ fuel grid emp filled path curr rng,
      curr < size →
      (∀ x ∈ path, x < size) →
      emp = (List.range size).filter (fun i => grid i == -1) →
      filled + emp.length = size →
      (∃ t, (growPath w h size colorId fuel grid emp filled path curr rng).2.2.2.1 =
        path ++ t) ∧
      (∀ x ∈ (growPath w h size colorId fuel grid emp filled path curr rng).2.2.2.1,
        x < size) ∧
      (growPath w h size colorId fuel grid emp filled path curr rng).2.1 =
        (List.range size).filter
          (fun i => (growPath w h size colorId fuel grid emp filled path curr rng).1 i == -1) ∧
      (growPath w h size colorId fuel grid emp filled path curr rng).2.2.1 +
        (growPath w h size colorId fuel grid emp filled path curr rng).2.1.length = size ∧
      (∀ i, (growPath w h size colorId fuel grid emp filled path curr rng).1 i ≠ -1 →
        grid i ≠ -1 ∨ i ∈ (growPath w h size colorId fuel grid emp filled path curr rng).2.2.2.1) := by
  intro fuel
  induction fuel with
  | zero =>
    intro grid emp filled path curr rng _ hp he hf
    exact ⟨⟨[], (List.append_nil path).symm⟩, hp, he, hf, fun i hi => Or.inl hi⟩
  | succ n ih =>
    intro grid emp filled path curr rng hc hp he hf
    simp only [growPath]
    by_cases hvm : (((getNeighbors curr w h).filter
        (isValidMove w h size colorId curr grid)).length == 0) = true
    · simp only [hvm, if_true]
      exact ⟨⟨[], (List.append_nil path).symm⟩, hp, he, hf, fun i hi => Or.inl hi⟩
    · simp only [hvm, Bool.false_eq_true, if_false]
      have hlen : 0 < ((getNeighbors curr w h).filter
          (isValidMove w h size colorId curr grid)).length := by
        rcases Nat.eq_zero_or_pos ((getNeighbors curr w h).filter
          (isValidMove w h size colorId curr grid)).length with hz | hpos
        · exact absurd (by simpa using hz) hvm
        · exact hpos
      have hidx := randIndex_lt rng (((getNeighbors curr w h).filter
        (isValidMove w h size colorId curr grid)).length) hlen
      have hnextmem : ((getNeighbors curr w h).filter
          (isValidMove w h size colorId curr grid)).getD
            (randIndex rng (((getNeighbors curr w h).filter
              (isValidMove w h size colorId curr grid)).length)).1 0 ∈
          (getNeighbors curr w h).filter (isValidMove w h size colorId curr grid) :=
        getD_mem_of_lt _ _ _ hidx
      set next := ((getNeighbors curr w h).filter
        (isValidMove w h size colorId curr grid)).getD
          (randIndex rng (((getNeighbors curr w h).filter
            (isValidMove w h size colorId curr grid)).length)).1 0 with hnextdef
      have hnextnb : next ∈ getNeighbors curr w h := List.mem_of_mem_filter hnextmem
      have hnextvalid : isValidMove w h size colorId curr grid next = true :=
        List.of_mem_filter hnextmem
      have hnextempty : grid next = -1 :=
        isValidMove_empty w h size colorId curr grid next hnextvalid
      have hnextlt : next < size := by
        rw [hsz]
        exact getNeighbors_lt curr w h (hsz ▸ hc) next hnextnb
      have hnextemp : next ∈ emp := by
        rw [he]
        exact List.mem_filter.2 ⟨List.mem_range.2 hnextlt, by simp [hnextempty]⟩
      have ha2 : emp.erase next = (List.range size).filter
          (fun i => updGrid grid next (colorId : Int) i == -1) := by
        rw [he, filter_range_update size next grid (colorId : Int) (natCast_ne_negOne colorId)]
      have hb2 : (filled + 1) + (emp.erase next).length = size := by
        rw [List.length_erase_of_mem hnextemp]
        have : 0 < emp.length := List.length_pos_of_mem hnextemp
        omega
      have hrec := ih (updGrid grid next (colorId : Int)) (emp.erase next) (filled + 1)
        (path ++ [next]) next ((randIndex rng (((getNeighbors curr w h).filter
          (isValidMove w h size colorId curr grid)).length)).2) hnextlt
        (by
          intro x hx
          rcases List.mem_append.1 hx with hx | hx
          · exact hp x hx
          · simp only [List.mem_singleton] at hx
            subst hx
            exact hnextlt)
        ha2 hb2
      obtain ⟨⟨t, ht⟩, hbound, ha3, hb3, hcov⟩ := hrec
      refine ⟨⟨[next] ++ t, by rw [ht, List.append_assoc]⟩, hbound, ha3, hb3, ?_⟩
      intro i hi
      rcases hcov i hi with hg | hmem
      · by_cases hieq : i = next
        · subst hieq
          right
          rw [ht]
          exact List.mem_append.2 (Or.inl (List.mem_append.2 (Or.inr (by simp))))
        · left
          intro hgi
          exact hg (by simp [updGrid, hieq, hgi])
      · exact Or.inr hmem

/-- The last element default-read of a nonempty list is a member. -/
theorem getLastD_mem (l : List Nat) (hl : l ≠ []) : (l.getLast?).getD 0 ∈ l := by
  cases hlast : l.getLast? with
  | none => exact absurd (List.getLast?_eq_none_iff.1 hlast) hl
  | some a => simpa using List.mem_of_mem_getLast? hlast

/-- The start-cell sampling loop only ever selects empty-list members (or
keeps its input). -/
theorem sampleStartLoop_mem (w h : Nat) (grid : Nat → Int) (emptyIndices : List Nat)
    (hne : emptyIndices ≠ []) :
    ∀ count best start rng,
      (start = none ∨ ∃ x ∈ emptyIndices, start = some x) →
      ((sampleStartLoop w h grid emptyIndices count best start rng).1 = none ∨
        ∃ x ∈ emptyIndices,
          (sampleStartLoop w h grid emptyIndices count best start rng).1 = some x) := by
  intro count
  induction count with
  | zero => intro best start rng hst; exact hst
  | succ k ih =>
    intro best start rng hst
    simp only [sampleStartLoop]
    have hlen : 0 < emptyIndices.length := List.length_pos_of_ne_nil hne
    split
    · exact ih _ _ _ (Or.inr ⟨emptyIndices.getD (randIndex rng emptyIndices.length).1 0,
        getD_mem_of_lt _ _ _ (randIndex_lt rng _ hlen), rfl⟩)
    · exact ih _ _ _ hst

/-- The state invariant of the per-attempt fill loop. -/
def FillInv (size : Nat) (st : FillState) : Prop :=
  st.emp = (List.range size).filter (fun i => st.grid i == -1) ∧
  st.filled + st.emp.length = size ∧
  (∀ i, st.grid i ≠ -1 → ∃ p ∈ st.paths, i ∈ p.path) ∧
  (∀ p ∈ st.paths, 3 ≤ p.path.length)

/-- The fill loop preserves the state invariant on every non-stuck exit. -/
theorem fillLoop_some_inv (w h size targetColors : Nat) (hsz : size = w * h) :
    ∀ fuel st st2 rngOut, FillInv size st →
      fillLoop w h size targetColors fuel st = (some st2, rngOut) →
      FillInv size st2 := by
  intro fuel
  induction fuel with
  | zero =>
    intro st st2 rngOut _ heq
    exact absurd (congrArg Prod.fst heq) (by simp [fillLoop])
  | succ n ih =>
    intro st st2 rngOut hinv heq
    obtain ⟨ha, hb, hcov, hlens⟩ := hinv
    simp only [fillLoop] at heq
    split at heq
    case isFalse hcond =>
      have h2 : st = st2 := Option.some_inj.1 (congrArg Prod.fst heq)
      exact h2 ▸ ⟨ha, hb, hcov, hlens⟩
    case isTrue hcond =>
      simp only [Bool.and_eq_true, decide_eq_true_eq, bne_iff_ne, ne_eq] at hcond
      obtain ⟨⟨hfl, hemne⟩, hplen⟩ := hcond
      have hempne : st.emp ≠ [] := by
        intro h0
        rw [h0] at hemne
        exact hemne rfl
      have hlpos : 0 < st.emp.length := List.length_pos_of_ne_nil hempne
      set sres := sampleStartLoop w h st.grid st.emp (min st.emp.length 15) 99 none st.rng
        with hsres
      set startIdx := sres.1.getD (st.emp.getD 0 0) with hstartIdx
      have hstartmem : startIdx ∈ st.emp := by
        rcases sampleStartLoop_mem w h st.grid st.emp hempne (min st.emp.length 15) 99 none
          st.rng (Or.inl rfl) with hn | ⟨x, hx, hsome⟩
        · rw [← hsres] at hn
          rw [hstartIdx, hn]
          exact getD_mem_of_lt st.emp 0 0 hlpos
        · rw [← hsres] at hsome
          rw [hstartIdx, hsome]
          exact hx
      have hstartlt : startIdx < size := by
        rw [ha] at hstartmem
        exact List.mem_range.1 (List.mem_filter.1 hstartmem).1
      have ha1 : st.emp.erase startIdx = (List.range size).filter
          (fun i => updGrid st.grid startIdx (st.paths.length : Int) i == -1) := by
        rw [ha, filter_range_update size startIdx st.grid (st.paths.length : Int)
          (natCast_ne_negOne st.paths.length)]
      have hb1 : (st.filled + 1) + (st.emp.erase startIdx).length = size := by
        rw [List.length_erase_of_mem hstartmem]
        omega
      have hg := growPath_spec w h size st.paths.length hsz
        ((st.emp.erase startIdx).length + 1)
        (updGrid st.grid startIdx (st.paths.length : Int)) (st.emp.erase startIdx)
        (st.filled + 1) [startIdx] startIdx sres.2 hstartlt
        (by
          intro x hx
          simp only [List.mem_singleton] at hx
          subst hx
          exact hstartlt)
        ha1 hb1
      set g := growPath w h size st.paths.length ((st.emp.erase startIdx).length + 1)
        (updGrid st.grid startIdx (st.paths.length : Int)) (st.emp.erase startIdx)
        (st.filled + 1) [startIdx] startIdx sres.2 with hgdef
      obtain ⟨⟨t, ht⟩, hbound, ha2, hb2, hcov2⟩ := hg
      have hstartpath : startIdx ∈ g.2.2.2.1 := by
        rw [ht]
        exact List.mem_append.2 (Or.inl (by simp))
      split at heq
      case isTrue hlt3 =>
        exact absurd (congrArg Prod.fst heq) (by simp)
      case isFalse hlt3 =>
        have hp3 : 3 ≤ g.2.2.2.1.length := by omega
        have hpne : g.2.2.2.1 ≠ [] := by
          intro h0
          rw [h0] at hp3
          simp at hp3
        have hlastmem : (g.2.2.2.1.getLast?).getD 0 ∈ g.2.2.2.1 :=
          getLastD_mem _ hpne
        have hlastlt : (g.2.2.2.1.getLast?).getD 0 < size := hbound _ hlastmem
        have hcovnew : ∀ newPath : List Nat, g.2.2.2.1 ⊆ newPath →
            ∀ i, g.1 i ≠ -1 →
              ∃ p ∈ st.paths ++ [SolvedPath.mk st.paths.length newPath], i ∈ p.path := by
          intro newPath hsub i hi
          rcases hcov2 i hi with hup | hmem
          · by_cases hieq : i = startIdx
            · subst hieq
              exact ⟨⟨st.paths.length, newPath⟩, List.mem_append.2 (Or.inr (by simp)),
                hsub hstartpath⟩
            · have : st.grid i ≠ -1 := by
                intro h0
                exact hup (by simp [updGrid, hieq, h0])
              obtain ⟨p, hp, hip⟩ := hcov i this
              exact ⟨p, List.mem_append.2 (Or.inl hp), hip⟩
          · exact ⟨⟨st.paths.length, newPath⟩, List.mem_append.2 (Or.inr (by simp)),
              hsub hmem⟩
        split at heq
        case isTrue hadj =>
          split at heq
          case isTrue hext0 =>
            exact absurd (congrArg Prod.fst heq) (by simp)
          case isFalse hext0 =>
            set validExtensions := (getNeighbors ((g.2.2.2.1.getLast?).getD 0) w h).filter
              (fun next => g.1 next == -1 && !g.2.2.2.1.contains next) with hvext
            have hvlen : 0 < validExtensions.length := by
              rcases Nat.eq_zero_or_pos validExtensions.length with hz | hpos
              · exact absurd (by simp [hz] : (validExtensions.length == 0) = true) hext0
              · exact hpos
            set ext := validExtensions.getD
              (randIndex g.2.2.2.2 validExtensions.length).1 0 with hextdef
            have hextmem : ext ∈ validExtensions :=
              getD_mem_of_lt _ _ _ (randIndex_lt _ _ hvlen)
            have hextnb : ext ∈ getNeighbors ((g.2.2.2.1.getLast?).getD 0) w h := by
              rw [hvext] at hextmem
              exact List.mem_of_mem_filter hextmem
            have hextempty : g.1 ext = -1 := by
              rw [hvext] at hextmem
              have := List.of_mem_filter hextmem
              simp only [Bool.and_eq_true, beq_iff_eq] at this
              exact this.1
            have hextlt : ext < size := by
              rw [hsz]
              exact getNeighbors_lt _ w h (hsz ▸ hlastlt) ext hextnb
            have hextemp : ext ∈ g.2.1 := by
              rw [ha2]
              exact List.mem_filter.2 ⟨List.mem_range.2 hextlt, by simp [hextempty]⟩
            apply ih _ st2 rngOut _ heq
            refine ⟨?_, ?_, ?_, ?_⟩
            · show g.2.1.erase ext = (List.range size).filter
                (fun i => updGrid g.1 ext (st.paths.length : Int) i == -1)
              rw [ha2, filter_range_update size ext g.1 (st.paths.length : Int)
                (natCast_ne_negOne st.paths.length)]
            · show (g.2.2.1 + 1) + (g.2.1.erase ext).length = size
              rw [List.length_erase_of_mem hextemp]
              have : 0 < g.2.1.length := List.length_pos_of_mem hextemp
              omega
            · show ∀ i, updGrid g.1 ext (st.paths.length : Int) i ≠ -1 →
                ∃ p ∈ st.paths ++ [SolvedPath.mk st.paths.length (g.2.2.2.1 ++ [ext])],
                  i ∈ p.path
              intro i hi
              by_cases hieq : i = ext
              · subst hieq
                exact ⟨⟨st.paths.length, g.2.2.2.1 ++ [ext]⟩,
                  List.mem_append.2 (Or.inr (by simp)),
                  List.mem_append.2 (Or.inr (by simp))⟩
              · have : g.1 i ≠ -1 := by
                  intro h0
                  exact hi (by simp [updGrid, hieq, h0])
                exact hcovnew (g.2.2.2.1 ++ [ext])
                  (fun x hx => List.mem_append.2 (Or.inl hx)) i this
            · show ∀ p ∈ st.paths ++ [SolvedPath.mk st.paths.length (g.2.2.2.1 ++ [ext])],
                3 ≤ p.path.length
              intro p hp
              rcases List.mem_append.1 hp with hp | hp
              · exact hlens p hp
              · simp only [List.mem_singleton] at hp
                subst hp
                simp only [List.length_append, List.length_singleton]
                omega
        case isFalse hadj =>
          apply ih _ st2 rngOut _ heq
          refine ⟨ha2, hb2, ?_, ?_⟩
          · show ∀ i, g.1 i ≠ -1 →
              ∃ p ∈ st.paths ++ [SolvedPath.mk st.paths.length g.2.2.2.1], i ∈ p.path
            exact hcovnew g.2.2.2.1 (fun x hx => hx)
          · show ∀ p ∈ st.paths ++ [SolvedPath.mk st.paths.length g.2.2.2.1],
              3 ≤ p.path.length
            intro p hp
            rcases List.mem_append.1 hp with hp | hp
            · exact hlens p hp
            · simp only [List.mem_singleton] at hp
              subst hp
              exact hp3

/-- Color reassignment keeps the list of paths (as cell sequences) intact. -/
theorem assignColors_paths (paths : List SolvedPath) (assign : List Nat) :
    (assignColors paths assign).length = paths.length ∧
    (∀ q ∈ paths, ∃ q2 ∈ assignColors paths assign, q2.path = q.path) ∧
    (∀ q2 ∈ assignColors paths assign, ∃ q ∈ paths, q2.path = q.path) := by
  refine ⟨List.length_mapIdx, ?_, ?_⟩
  · intro q hq
    obtain ⟨i, hi, hget⟩ := List.mem_iff_getElem.1 hq
    have hi2 : i < (assignColors paths assign).length := by
      simpa [assignColors, List.length_mapIdx] using hi
    refine ⟨(assignColors paths assign)[i], List.getElem_mem hi2, ?_⟩
    rw [show (assignColors paths assign)[i] =
      { paths[i] with colorId := assign.getD i 0 } from List.getElem_mapIdx ..]
    rw [hget]
  · intro q2 hq2
    obtain ⟨i, hi, hget⟩ := List.mem_iff_getElem.1 hq2
    have hi2 : i < paths.length := by simpa [assignColors, List.length_mapIdx] using hi
    refine ⟨paths[i], List.getElem_mem hi2, ?_⟩
    rw [← hget, show (assignColors paths assign)[i] =
      { paths[i] with colorId := assign.getD i 0 } from List.getElem_mapIdx ..]

/-- A key is present in the built anchors record exactly when it is the first
or last cell of one of the paths. -/
theorem lookupLast_buildAnchors (ps : List SolvedPath) (c : Nat) :
    (lookupLast (buildAnchors ps) c).isSome = true ↔
      ∃ p ∈ ps, c = p.path.getD 0 0 ∨ c = (p.path.getLast?).getD 0 := by
  rw [lookupLast, Option.isSome_map']
  rw [List.getLast?_isSome]
  constructor
  · intro hne
    have : ∃ e ∈ buildAnchors ps, (fun e : Nat × Nat => e.1 == c) e = true := by
      by_contra hall
      push_neg at hall
      exact hne (List.filter_eq_nil_iff.2 hall)
    obtain ⟨e, he, hpred⟩ := this
    simp only [beq_iff_eq] at hpred
    rw [buildAnchors, List.mem_flatten] at he
    obtain ⟨l2, hl2, hel2⟩ := he
    rw [List.mem_map] at hl2
    obtain ⟨p, hp, rfl⟩ := hl2
    simp only [List.mem_cons, List.mem_singleton, List.not_mem_nil, or_false] at hel2
    rcases hel2 with rfl | rfl
    · exact ⟨p, hp, Or.inl hpred.symm⟩
    · exact ⟨p, hp, Or.inr hpred.symm⟩
  · rintro ⟨p, hp, hc⟩
    intro hnil
    rw [List.filter_eq_nil_iff] at hnil
    rcases hc with rfl | rfl
    · exact hnil (p.path.getD 0 0, p.colorId)
        (by
          rw [buildAnchors, List.mem_flatten]
          exact ⟨_, List.mem_map.2 ⟨p, hp, rfl⟩, by simp⟩)
        (by simp)
    · exact hnil ((p.path.getLast?).getD 0, p.colorId)
        (by
          rw [buildAnchors, List.mem_flatten]
          exact ⟨_, List.mem_map.2 ⟨p, hp, rfl⟩, by simp⟩)
        (by simp)

/-- Structure of every successful exit of the attempts loop: it comes from a
non-stuck fill with all success checks passed, and the level is built from
the color-reassigned paths of that fill with its anchors validated. -/
theorem attemptsLoop_some_spec (w h size minC targetColors : Nat) :
    ∀ n rng lvl rngOut,
      attemptsLoop w h size minC targetColors n rng = (some lvl, rngOut) →
      ∃ rngStart st rng2 assign,
        fillLoop w h size targetColors (size + 1)
          { grid := fun _ => (-1 : Int),
            emp := (List.range size).filter (fun i => ((fun _ => (-1 : Int)) i) == -1),
            filled := 0, paths := [], rng := rngStart } = (some st, rng2) ∧
        st.filled = size ∧ minC ≤ st.paths.length ∧ st.paths.length = targetColors ∧
        lvl = { width := w, height := h,
                anchors := buildAnchors (assignColors st.paths assign),
                difficulty := (assignColors st.paths assign).length,
                solvedPaths := assignColors st.paths assign } ∧
        validateAnchors (buildAnchors (assignColors st.paths assign)) w = true := by
  intro n
  induction n with
  | zero =>
    intro rng lvl rngOut heq
    exact absurd (congrArg Prod.fst heq) (by simp [attemptsLoop])
  | succ m ih =>
    intro rng lvl rngOut heq
    simp only [attemptsLoop] at heq
    split at heq
    case h_1 rng2 hfl =>
      exact ih _ _ _ heq
    case h_2 st rngIgnored hfl =>
      split at heq
      case isTrue hguards =>
        simp only [Bool.and_eq_true, beq_iff_eq, decide_eq_true_eq] at hguards
        obtain ⟨hfilled, hminc⟩ := hguards
        split at heq
        case isTrue hneq =>
          exact ih _ _ _ heq
        case isFalse hneq =>
          have htc : st.paths.length = targetColors := by
            by_cases heq2 : st.paths.length = targetColors
            · exact heq2
            · exact absurd (by simp [heq2] : (st.paths.length != targetColors) = true) hneq
          split at heq
          case isTrue hva =>
            refine ⟨rng, st, _, (shuffleList (List.range targetColors) st.rng).1,
              hfl, hfilled, hminc, htc, ?_, hva⟩
            exact (Option.some_inj.1 (congrArg Prod.fst heq)).symm
          case isFalse hva =>
            exact ih _ _ _ heq
      case isFalse hguards =>
        exact ih _ _ _ heq

/-- C4.  Whenever the primary generator succeeds (`usedFallback = false`),
the returned puzzle covers every grid cell with its paths, has exactly
`targetColors` paths (the once-sampled pick of draw 0) and at least
`minColors` of them, every path is at least 3 cells long, the anchors record
holds exactly the first and last cells of the paths, and the generator's own
anchor validation (each color exactly two, non-adjacent anchors) holds. -/
theorem C4_primary_success (width height minC maxC : Nat) (palette : Option Nat)
    (seed : Option Nat) (maxAttempts : Option Nat) (ambient : Nat → Nat) (lvl : LevelData)
    (hsucc : generateLevel width height minC maxC palette seed maxAttempts ambient =
      some (lvl, false)) :
    (∀ c < width * height, ∃ p ∈ lvl.solvedPaths, c ∈ p.path) ∧
    lvl.solvedPaths.length =
      targetColorsOf (palette.getD 20) minC maxC (initStream seed ambient 0) ∧
    minC ≤ lvl.solvedPaths.length ∧
    (∀ p ∈ lvl.solvedPaths, 3 ≤ p.path.length) ∧
    (∀ c : Nat, (lookupLast lvl.anchors c).isSome = true ↔
      ∃ p ∈ lvl.solvedPaths, c = p.path.getD 0 0 ∨ c = (p.path.getLast?).getD 0) ∧
    validateAnchors lvl.anchors width = true := by
  simp only [generateLevel, generateLevelCore] at hsucc
  split at hsucc
  case h_2 rng2 hA =>
    cases hfb : generateFallbackLevel width height minC maxC rng2 (palette.getD 20) with
    | none =>
      rw [hfb] at hsucc
      exact absurd hsucc (by simp)
    | some l =>
      rw [hfb, Option.map_some'] at hsucc
      exact absurd (congrArg Prod.snd (Option.some_inj.1 hsucc)) (by simp)
  case h_1 level sndIgnored hA =>
    have hlv : level = lvl := congrArg Prod.fst (Option.some_inj.1 hsucc)
    subst hlv
    obtain ⟨rngStart, st, rng2, assign, hfl, hfilled, hminc, htc, hlvleq, hva⟩ :=
      attemptsLoop_some_spec width height (width * height) minC _ _ _ _ _ hA
    have hinv0 : FillInv (width * height)
        { grid := fun _ => (-1 : Int),
          emp := (List.range (width * height)).filter
            (fun i => ((fun _ => (-1 : Int)) i) == -1),
          filled := 0, paths := [], rng := rngStart } := by
      refine ⟨rfl, ?_, ?_, ?_⟩
      · simp
      · intro i hi
        simp at hi
      · intro p hp
        simp at hp
    have hinvst := fillLoop_some_inv width height (width * height) _ rfl (width * height + 1)
      _ st rng2 hinv0 hfl
    obtain ⟨hae, hbe, hcove, hlense⟩ := hinvst
    have hemp0 : st.emp = [] := by
      have : st.emp.length = 0 := by omega
      exact List.length_eq_zero.1 this
    have hallfilled : ∀ c, c < width * height → st.grid c ≠ -1 := by
      intro c hc
      have hsym := hae.symm
      rw [hemp0] at hsym
      have := (List.filter_eq_nil_iff.1 hsym) c (List.mem_range.2 hc)
      simpa using this
    obtain ⟨hlen_eq, hfwd, hbwd⟩ := assignColors_paths st.paths assign
    have hsp : level.solvedPaths = assignColors st.paths assign := by
      rw [hlvleq]
    have hanch : level.anchors = buildAnchors (assignColors st.paths assign) := by
      rw [hlvleq]
    refine ⟨?_, ?_, ?_, ?_, ?_, ?_⟩
    · intro c hc
      obtain ⟨p, hp, hcp⟩ := hcove c (hallfilled c hc)
      obtain ⟨q2, hq2, hq2path⟩ := hfwd p hp
      exact ⟨q2, hsp ▸ hq2, hq2path ▸ hcp⟩
    · rw [hsp, hlen_eq, htc]
      rfl
    · rw [hsp, hlen_eq]
      exact hminc
    · intro p hp
      rw [hsp] at hp
      obtain ⟨q, hq, hqpath⟩ := hbwd p hp
      rw [hqpath]
      exact hlense q hq
    · intro c
      rw [hanch, hsp]
      exact lookupLast_buildAnchors (assignColors st.paths assign) c
    · rw [hanch]
      exact hva

/-- C4 (witness): the 3×1 run with modelled seed 2 is a primary success and
enjoys all the properties. -/
theorem C4_primary_success_witness :
    generateLevel 3 1 1 1 none (some 2) none zeroStream = some (l0Level, false) ∧
    ((∀ c < 3 * 1, ∃ p ∈ l0Level.solvedPaths, c ∈ p.path) ∧
      l0Level.solvedPaths.length =
        targetColorsOf ((none : Option Nat).getD 20) 1 1 (initStream (some 2) zeroStream 0) ∧
      1 ≤ l0Level.solvedPaths.length ∧
      (∀ p ∈ l0Level.solvedPaths, 3 ≤ p.path.length) ∧
      (∀ c : Nat, (lookupLast l0Level.anchors c).isSome = true ↔
        ∃ p ∈ l0Level.solvedPaths, c = p.path.getD 0 0 ∨ c = (p.path.getLast?).getD 0) ∧
      validateAnchors l0Level.anchors 3 = true) :=
  ⟨by decide, C4_primary_success 3 1 1 1 none (some 2) none zeroStream l0Level (by decide)⟩
